import Mathlib

/-!
# tsp_ga: population operations of the genetic algorithm

A shallow embedding of `src/population.cpp` (class `Population`) over lists.

* `double` values are exact rationals (`ℚ`); a `static_cast` of a `double` to an
  iterator `difference_type` is truncation toward zero (`truncToInt`).
* A `std::vector<Chromosome>` is a `List Chromosome`.  Iterator arithmetic that
  leaves `[begin, end]` and element access past the end have no defined result:
  the embedding returns `none` there.
* Every random choice is an explicit argument: `std::shuffle` takes the list of
  numbers drawn by its engine, the operators of the absent translation units
  (`crossover.cpp`, `mutation.cpp`, `chromosome.cpp`) take a seed.
-/

namespace TspGa

/-! ## Data model -/

/-- Modelled from the spec: `chromosome.h` is absent. A chromosome is the ordered sequence of
city identifiers together with the cached fitness score. -/
structure Chromosome where
  genes : List Nat
  fitnessScore : ℚ
deriving DecidableEq

/-- Number of genes, `Chromosome::GetSize`. -/
def Chromosome.GetSize (c : Chromosome) : Nat := c.genes.length

/-- Modelled from the spec: `tsp_ga.h` is absent. The configuration record, with the fields the
two translation units read or write. -/
structure TspGaConfig where
  chromosomeSize : Nat
  startPointId : Nat
  initialPopulationSize : Nat
  eliteChromosomesPct : ℚ
  bestChromosomesPct : ℚ
  restChromosomesPct : ℚ
  bestChromosomesDecreaseRate : ℚ
  mutationRate : ℚ
  mutationIncreaseRate : ℚ
  mutationPatience : Int
  maxGenerations : Nat
deriving DecidableEq

/-- Pairing strategy of `GenerateSubPopulation`. -/
inductive CrossoverStrategy where
  | EveryPair
  | SequentialPair
  | ShuffledSequentialPair
deriving DecidableEq

/-- The global objects the population operations touch: `tspConfig` (population.cpp:12),
`TspGa::config` (tsp_ga.cpp:12) and `TspGa::bestChromosome` (tsp_ga.cpp:14). -/
structure Globals where
  tspConfig : TspGaConfig
  config : TspGaConfig
  bestChromosome : Chromosome
deriving DecidableEq

/-- The operations of the translation units that are not part of the sources, taken as
parameters. `fitness` is the tour length `Chromosome::CalculateFitnessScore` computes from the
genes; the randomised operators take the seed of their engine as first argument. -/
structure Externals where
  fitness : List Nat → ℚ
  ShuffleGenes : Nat → Chromosome → Chromosome
  ApplyPartiallyMapped : Nat → Chromosome → Chromosome → Chromosome × Chromosome
  ApplyInversion : Nat → Chromosome → Chromosome

/-- Recompute and cache the fitness of one chromosome, `Chromosome::CalculateFitnessScore`. -/
def Externals.CalculateFitnessScore (X : Externals) (c : Chromosome) : Chromosome :=
  { c with fitnessScore := X.fitness c.genes }

/-! ## Primitive helpers -/

/-- Conversion of a `double` to a signed integer type: truncation toward zero. -/
def truncToInt (q : ℚ) : Int := if 0 ≤ q then ⌊q⌋ else ⌈q⌉

/-- The outcome of `std::shuffle` on a range: each element is inserted at the position the next
drawn number selects among those already placed. The result is a reordering of the range that is
fixed by the drawn numbers, and every reordering is the result of some draw. -/
def shuffleList {α : Type} : List Nat → List α → List α
  | _, [] => []
  | ds, x :: xs =>
    let r := shuffleList ds.tail xs
    r.insertIdx (ds.headD 0 % (r.length + 1)) x

/-- The order `std::sort` establishes with the comparator
`c1.GetFitnessScore() < c2.GetFitnessScore()`. -/
def fitnessLE (c1 c2 : Chromosome) : Prop := c1.fitnessScore ≤ c2.fitnessScore

instance fitnessLE_decidable : DecidableRel fitnessLE :=
  fun c1 c2 => inferInstanceAs (Decidable (c1.fitnessScore ≤ c2.fitnessScore))

/-- The population after `std::sort` by ascending fitness (population.cpp:78-80). `std::sort`
leaves the order among chromosomes of equal fitness open; here they keep their relative order. -/
def sortByFitness (pop : List Chromosome) : List Chromosome :=
  pop.insertionSort fitnessLE

/-! ## Population::SelectBestChromosomes -/

/-- Local `firstIndexOfRest` (population.cpp:84-85) for a population of `n` chromosomes. -/
def firstIndexOfRest (cfg : TspGaConfig) (n : Nat) : Int :=
  truncToInt ((n : ℚ) * cfg.bestChromosomesPct)

/-- Local `firstIndexToRemove` (population.cpp:88-89): `restSize` is computed from the
untruncated `bestSize`. -/
def firstIndexToRemove (cfg : TspGaConfig) (n : Nat) : Int :=
  firstIndexOfRest cfg n +
    truncToInt (((n : ℚ) - (n : ℚ) * cfg.bestChromosomesPct) * cfg.restChromosomesPct)

/-- An iterator offset `k` from `begin` stays inside a vector of `n` elements. -/
def inRange (k : Int) (n : Nat) : Prop := 0 ≤ k ∧ k ≤ (n : Int)

instance inRange_decidable (k : Int) (n : Nat) : Decidable (inRange k n) :=
  inferInstanceAs (Decidable (0 ≤ k ∧ k ≤ (n : Int)))

/-- Lines 78-90 of `SelectBestChromosomes`: sort, shuffle the part after the best ones, erase the
tail. `none` when one of the two iterator offsets leaves the vector. -/
def selectAndErase (cfg : TspGaConfig) (draws : List Nat) (pop : List Chromosome) :
    Option (List Chromosome) :=
  let sorted := sortByFitness pop
  let populationSize := sorted.length
  let k := firstIndexOfRest cfg populationSize
  if inRange k populationSize then
    let shuffled := sorted.take k.toNat ++ shuffleList draws (sorted.drop k.toNat)
    let e := firstIndexToRemove cfg populationSize
    if inRange e populationSize then some (shuffled.take e.toNat) else none
  else none

/-- The best-ever update of lines 92-94, given chromosome 0 of the selected population. -/
def updateBest (best c0 : Chromosome) : Chromosome :=
  if best.GetSize = 0 ∨ c0.fitnessScore < best.fitnessScore then c0 else best

/-- The decay of line 96. -/
def decayBestPct (cfg : TspGaConfig) : TspGaConfig :=
  { cfg with bestChromosomesPct := cfg.bestChromosomesPct * (1 - cfg.bestChromosomesDecreaseRate) }

/-- The whole of `Population::SelectBestChromosomes` (population.cpp:77-97): the globals and the
population after the call. `GetChromosome(0)` of an empty selection has no defined result. -/
def SelectBestChromosomes (g : Globals) (draws : List Nat) (pop : List Chromosome) :
    Option (Globals × List Chromosome) :=
  match selectAndErase g.tspConfig draws pop with
  | none => none
  | some [] => none
  | some (c0 :: rest) =>
    some ({ g with bestChromosome := updateBest g.bestChromosome c0,
                   tspConfig := decayBestPct g.tspConfig }, c0 :: rest)

/-- A sequence of calls of `SelectBestChromosomes`, each on the population and with the draw
given for it; the globals are threaded through. -/
def selectCalls : Globals → List (List Nat × List Chromosome) → Option Globals
  | g, [] => some g
  | g, (draws, pop) :: cs =>
    match SelectBestChromosomes g draws pop with
    | none => none
    | some (g1, _) => selectCalls g1 cs

/-! ## Population::GenerateSubPopulation -/

/-- Lambda `createOffspringPairs` (population.cpp:117-128): PMX is applied twice to the same
parents, each application with the seed of its own engine, and the fitness of the four children
is computed. -/
def createOffspringPairs (X : Externals) (seed1 seed2 : Nat) (chromosome1 chromosome2 : Chromosome) :
    (Chromosome × Chromosome) × (Chromosome × Chromosome) :=
  let offSprings1 := X.ApplyPartiallyMapped seed1 chromosome1 chromosome2
  let offSprings2 := X.ApplyPartiallyMapped seed2 chromosome1 chromosome2
  ((X.CalculateFitnessScore offSprings1.1, X.CalculateFitnessScore offSprings1.2),
   (X.CalculateFitnessScore offSprings2.1, X.CalculateFitnessScore offSprings2.2))

/-- The child `chooseAndAddBetterOffspring` selects (population.cpp:131). -/
def betterOffspring (offspring1 offspring2 : Chromosome) : Chromosome :=
  if offspring1.fitnessScore ≤ offspring2.fitnessScore then offspring1 else offspring2

/-- Lambda `chooseAndAddBetterOffspring` (population.cpp:130-133): the selected child is appended
to the new population. -/
def chooseAndAddBetterOffspring (newPopulation : List Chromosome)
    (offspring1 offspring2 : Chromosome) : List Chromosome :=
  newPopulation ++ [betterOffspring offspring1 offspring2]

/-- The body shared by the three loops (population.cpp:139-142, 148-151, 157-160) for the parents
at the indices `i` and `j`; the `k`-th pair draws the seeds `2k` and `2k+1`. `none` when
`GetChromosome` is asked for an index past the end. -/
def crossPair (X : Externals) (seeds : Nat → Nat) (pop : List Chromosome) (k : Nat)
    (newPopulation : List Chromosome) (i j : Nat) : Option (List Chromosome) :=
  match pop[i]?, pop[j]? with
  | some c1, some c2 =>
    let o := createOffspringPairs X (seeds (2 * k)) (seeds (2 * k + 1)) c1 c2
    some (chooseAndAddBetterOffspring (chooseAndAddBetterOffspring newPopulation o.1.1 o.1.2)
      o.2.1 o.2.2)
  | _, _ => none

/-- The loop body run over the parent pairs in the order the loops visit them. -/
def crossPairs (X : Externals) (seeds : Nat → Nat) (pop : List Chromosome) :
    List (Nat × Nat) → Nat → List Chromosome → Option (List Chromosome)
  | [], _, newPopulation => some newPopulation
  | (i, j) :: ps, k, newPopulation =>
    match crossPair X seeds pop k newPopulation i j with
    | none => none
    | some np => crossPairs X seeds pop ps (k + 1) np

/-- The index pairs of the `EveryPair` loops (population.cpp:137-138):
`i` from 0 below `size-1`, `j` from `i+1` below `size`. -/
def everyPairIndices (size : Nat) : List (Nat × Nat) :=
  (List.range (size - 1)).flatMap fun i =>
    (List.range' (i + 1) (size - (i + 1))).map fun j => (i, j)

/-- The index pairs of the `SequentialPair` loops (population.cpp:147-148, 156-157):
`(i, i+1)` for `i` from 0 below `size-2`. -/
def sequentialPairIndices (size : Nat) : List (Nat × Nat) :=
  (List.range (size - 2)).map fun i => (i, i + 1)

/-- Local `lastEliteIndex` (population.cpp:104-105) for a population of `n` chromosomes. -/
def lastEliteIndex (cfg : TspGaConfig) (n : Nat) : Int :=
  truncToInt ((n : ℚ) * cfg.eliteChromosomesPct)

/-- The smallest population on which the loop of a strategy stays inside the vector: below it
the unsigned bound `size-1` resp. `size-2` wraps around. -/
def minimumSize : CrossoverStrategy → Nat
  | .EveryPair => 1
  | .SequentialPair => 2
  | .ShuffledSequentialPair => 2

/-- The parent index pairs a strategy visits on a population of `n` chromosomes. -/
def pairIndices : CrossoverStrategy → Nat → List (Nat × Nat)
  | .EveryPair, n => everyPairIndices n
  | .SequentialPair, n => sequentialPairIndices n
  | .ShuffledSequentialPair, n => sequentialPairIndices n

/-- The chromosomes the loop of a strategy reads: `ShuffledSequentialPair` shuffles the receiver
first (population.cpp:155). -/
def parentsOf : CrossoverStrategy → List Nat → List Chromosome → List Chromosome
  | .EveryPair, _, pop => pop
  | .SequentialPair, _, pop => pop
  | .ShuffledSequentialPair, draws, pop => shuffleList draws pop

/-- The whole of `Population::GenerateSubPopulation` (population.cpp:99-168): the returned
population together with the receiver after the call (`ShuffledSequentialPair` shuffles it in
place). The unsigned `size-1` and `size-2` wrap around for smaller populations; the loops then
run past the end of the vector, which has no defined result. -/
def GenerateSubPopulation (X : Externals) (g : Globals) (crossoverStrategy : CrossoverStrategy)
    (draws : List Nat) (seeds : Nat → Nat) (pop : List Chromosome) :
    Option (List Chromosome × List Chromosome) :=
  let size := pop.length
  let k := lastEliteIndex g.config size
  if inRange k size then
    let newPopulation := pop.take k.toNat
    match crossoverStrategy with
    | .EveryPair =>
      if 1 ≤ size then
        (crossPairs X seeds pop (everyPairIndices size) 0 newPopulation).map fun np => (np, pop)
      else none
    | .SequentialPair =>
      if 2 ≤ size then
        (crossPairs X seeds pop (sequentialPairIndices size) 0 newPopulation).map
          fun np => (np, pop)
      else none
    | .ShuffledSequentialPair =>
      let shuffled := shuffleList draws pop
      if 2 ≤ size then
        (crossPairs X seeds shuffled (sequentialPairIndices size) 0 newPopulation).map
          fun np => (np, shuffled)
      else none
  else none

/-! ## Population::GenerateRandomInitialPopulation -/

/-- The genes of the base chromosome (population.cpp:51-61): the start point, then every
identifier `geneIndex + 1` that is not the start point. -/
def baseGenes (cfg : TspGaConfig) : List Nat :=
  cfg.startPointId ::
    ((List.range cfg.chromosomeSize).map (· + 1)).filter (fun gene => gene ≠ cfg.startPointId)

/-- The loop of population.cpp:63-71: the one chromosome object is shuffled again in every
iteration and a copy of it is added; iteration `idx` draws seed `idx`. -/
def shuffleAndAdd (X : Externals) (seeds : Nat → Nat) :
    Nat → Nat → Chromosome → List Chromosome → List Chromosome
  | 0, _, _, chromosomes => chromosomes
  | m + 1, idx, chromosome, chromosomes =>
    let shuffled := X.ShuffleGenes (seeds idx) chromosome
    shuffleAndAdd X seeds m (idx + 1) shuffled (chromosomes ++ [shuffled])

/-- Method `Population::ClearPopulation` (population.cpp:42-44). -/
def ClearPopulation (_chromosomes : List Chromosome) : List Chromosome := []

/-- The whole of `Population::GenerateRandomInitialPopulation` (population.cpp:46-74) on a
population holding `previous`. The fitness cached in the freshly constructed chromosome is
overwritten by `CalculateFitnessScores` before it is read. -/
def GenerateRandomInitialPopulation (X : Externals) (g : Globals) (seeds : Nat → Nat)
    (previous : List Chromosome) : List Chromosome :=
  let cleared := ClearPopulation previous
  let chromosome : Chromosome := ⟨baseGenes g.config, 0⟩
  (shuffleAndAdd X seeds g.config.initialPopulationSize 0 chromosome cleared).map
    X.CalculateFitnessScore

instance fitnessLE_total : IsTotal Chromosome fitnessLE :=
  ⟨fun a b => le_total a.fitnessScore b.fitnessScore⟩

instance fitnessLE_trans : IsTrans Chromosome fitnessLE :=
  ⟨fun _ _ _ hab hbc => le_trans hab hbc⟩

/-- The population between the shuffle (line 86) and the erase (line 90). -/
def shuffledPopulation (cfg : TspGaConfig) (draws : List Nat) (pop : List Chromosome) :
    List Chromosome :=
  (sortByFitness pop).take (firstIndexOfRest cfg pop.length).toNat ++
    shuffleList draws ((sortByFitness pop).drop (firstIndexOfRest cfg pop.length).toNat)

/-! ## Population::Shuffle, Population::Mutate, Population::CalculateFitnessScores -/

/-- Method `Population::Shuffle` (population.cpp:170-172). -/
def Shuffle (draws : List Nat) (pop : List Chromosome) : List Chromosome :=
  shuffleList draws pop

/-- Method `Population::CalculateFitnessScores` (population.cpp:36-40). -/
def CalculateFitnessScores (X : Externals) (pop : List Chromosome) : List Chromosome :=
  pop.map X.CalculateFitnessScore

/-- The loop of population.cpp:177-179 from chromosome `idx` on: the inversion operator is applied
to each chromosome in place; chromosome `i` draws seed `i`. -/
def applyInversionFrom (X : Externals) (seeds : Nat → Nat) :
    Nat → List Chromosome → List Chromosome
  | _, [] => []
  | idx, c :: cs => X.ApplyInversion (seeds idx) c :: applyInversionFrom X seeds (idx + 1) cs

/-- The update of line 181. -/
def growMutationRate (cfg : TspGaConfig) : TspGaConfig :=
  { cfg with mutationRate := cfg.mutationRate * (1 + cfg.mutationIncreaseRate) }

/-- The whole of `Population::Mutate` (population.cpp:174-182): the globals and the population
after the call. -/
def Mutate (X : Externals) (g : Globals) (seeds : Nat → Nat) (pop : List Chromosome) :
    Globals × List Chromosome :=
  ({ g with tspConfig := growMutationRate g.tspConfig }, applyInversionFrom X seeds 0 pop)

/-! ## TspGa::CreateGenerations -/

/-- The local variables of `CreateGenerations` (tsp_ga.cpp:47-50) together with the globals and
the population it works on. `createdGenerationCount` is an `unsigned int`. -/
structure DriverState where
  globals : Globals
  parentPopulation : List Chromosome
  createdGenerationCount : Nat
  lastFitnessScore : ℚ
  mutationPatience : Int
deriving DecidableEq

/-- The random choices of one generation: the shuffle of `SelectBestChromosomes`, the seeds of
`Mutate`, the shuffle and the PMX seeds of `GenerateSubPopulation`. -/
structure GenRandom where
  selectDraws : List Nat
  mutateSeeds : Nat → Nat
  shuffleDraws : List Nat
  pmxSeeds : Nat → Nat

/-- What one pass through the loop body writes to the console: the best fitness and the
population size of line 57, and whether the message of line 70 appears. -/
structure LogEntry where
  bestFitness : ℚ
  populationSize : Nat
  mutationFired : Bool
deriving DecidableEq

/-- The loop body up to line 74: either the `break` of line 60 was taken, or control stands
before the call of `GenerateSubPopulation` at line 76. -/
inductive Phase where
  | stop (s : DriverState) (entry : LogEntry)
  | ready (s : DriverState) (entry : LogEntry)
deriving DecidableEq

/-- The stagnation counter after line 67, for the post-selection best fitness `last`: the old
counter plus one when `last` equals `lastFitnessScore`, else 0. -/
def stagnationCounter (s : DriverState) (last : ℚ) : Int :=
  if last = s.lastFitnessScore then s.mutationPatience + 1 else 0

/-- The state before line 76 when the condition of line 69 is false: `lastFitnessScore` is the
fitness of chromosome 0 of the selected population. -/
def stateWithoutMutation (s : DriverState) (g1 : Globals) (c0 : Chromosome)
    (rest : List Chromosome) : DriverState :=
  { globals := g1, parentPopulation := c0 :: rest,
    createdGenerationCount := s.createdGenerationCount,
    lastFitnessScore := c0.fitnessScore,
    mutationPatience := stagnationCounter s c0.fitnessScore }

/-- The state before line 76 when the condition of line 69 holds: the population is mutated and
its fitness recomputed (lines 71-72), `lastFitnessScore` is the fitness of its chromosome 0
(line 74), and the counter keeps the value of line 67. -/
def stateWithMutation (s : DriverState) (gm : Globals) (c0 d0 : Chromosome)
    (ds : List Chromosome) : DriverState :=
  { globals := gm, parentPopulation := d0 :: ds,
    createdGenerationCount := s.createdGenerationCount,
    lastFitnessScore := d0.fitnessScore,
    mutationPatience := stagnationCounter s c0.fitnessScore }

/-- Lines 54-74 of the loop body: selection, size check, stagnation counter, forced mutation, and
the recording of `lastFitnessScore`. -/
def selectAndMutate (X : Externals) (r : GenRandom) (s : DriverState) : Option Phase :=
  match SelectBestChromosomes s.globals r.selectDraws s.parentPopulation with
  | none => none
  | some (_, []) => none
  | some (g1, c0 :: rest) =>
    if (c0 :: rest).length < 4 then
      some (.stop { s with globals := g1, parentPopulation := c0 :: rest }
        ⟨c0.fitnessScore, (c0 :: rest).length, false⟩)
    else if g1.config.mutationPatience ≤ stagnationCounter s c0.fitnessScore then
      match CalculateFitnessScores X (Mutate X g1 r.mutateSeeds (c0 :: rest)).2 with
      | [] => none
      | d0 :: ds =>
        some (.ready (stateWithMutation s (Mutate X g1 r.mutateSeeds (c0 :: rest)).1 c0 d0 ds)
          ⟨c0.fitnessScore, (c0 :: rest).length, true⟩)
    else
      some (.ready (stateWithoutMutation s g1 c0 rest)
        ⟨c0.fitnessScore, (c0 :: rest).length, false⟩)

/-- How one pass through the loop body ends: the `break` of line 60, the `return` of line 94, or
the end of the body. -/
inductive BodyResult where
  | broke (s : DriverState) (entry : LogEntry)
  | returned (s : DriverState) (entry : LogEntry)
  | continued (s : DriverState) (entry : LogEntry)
deriving DecidableEq

/-- The state at the end of a pass that reached line 76 with state `s1` and got `np` from
`GenerateSubPopulation` (lines 76-84); the increment of the `unsigned int` counter wraps around
at `2^32`. -/
def stateAfterCrossover (X : Externals) (s1 : DriverState) (np : List Chromosome) : DriverState :=
  { s1 with parentPopulation := CalculateFitnessScores X np,
            createdGenerationCount := (s1.createdGenerationCount + 1) % 4294967296 }

/-- The loop body (tsp_ga.cpp:52-95) for the limit `maxGenerations` read at line 47. -/
def generationBody (X : Externals) (maxGenerations : Nat) (r : GenRandom) (s : DriverState) :
    Option BodyResult :=
  match selectAndMutate X r s with
  | none => none
  | some (.stop s1 entry) => some (.broke s1 entry)
  | some (.ready s1 entry) =>
    match GenerateSubPopulation X s1.globals .ShuffledSequentialPair r.shuffleDraws r.pmxSeeds
        s1.parentPopulation with
    | none => none
    | some (np, _) =>
      if (stateAfterCrossover X s1 np).createdGenerationCount = maxGenerations then
        some (.returned (stateAfterCrossover X s1 np) entry)
      else some (.continued (stateAfterCrossover X s1 np) entry)

/-- The two ways `CreateGenerations` ends: the report of lines 87-94 and the one of lines
98-108. -/
inductive Outcome where
  | MaxGenerationsReached
  | NotEnoughChromosomes
deriving DecidableEq

/-- The result of running the loop: `undefined` when an access leaves a vector, `outOfFuel` when
the given number of loop passes does not suffice, else the outcome, the number of completed
generation transitions, the console log and the final state. -/
inductive RunResult where
  | undefined
  | outOfFuel
  | finished (outcome : Outcome) (transitions : Nat) (log : List LogEntry) (s : DriverState)
deriving DecidableEq

/-- The state a pass through the loop body ends in. -/
def BodyResult.state : BodyResult → DriverState
  | .broke s _ => s
  | .returned s _ => s
  | .continued s _ => s

/-- The console log of a run (empty when the run has no result). -/
def RunResult.log : RunResult → List LogEntry
  | .finished _ _ log _ => log
  | _ => []

/-- The final state of a finished run. -/
def RunResult.state? : RunResult → Option DriverState
  | .finished _ _ _ s => some s
  | _ => none

/-- The `while` loop of `CreateGenerations` (tsp_ga.cpp:51-96) for at most `fuel` passes; pass
number `i` uses the random choices `rnd i`. -/
def generationLoop (X : Externals) (rnd : Nat → GenRandom) (maxGenerations : Nat) :
    Nat → Nat → Nat → List LogEntry → DriverState → RunResult
  | 0, _, _, _, _ => .outOfFuel
  | fuel + 1, i, transitions, log, s =>
    if 4 < s.parentPopulation.length then
      match generationBody X maxGenerations (rnd i) s with
      | none => .undefined
      | some (.broke s1 entry) => .finished .NotEnoughChromosomes transitions (log ++ [entry]) s1
      | some (.returned s1 entry) =>
        .finished .MaxGenerationsReached (transitions + 1) (log ++ [entry]) s1
      | some (.continued s1 entry) =>
        generationLoop X rnd maxGenerations fuel (i + 1) (transitions + 1) (log ++ [entry]) s1
    else .finished .NotEnoughChromosomes transitions log s

/-- The state at the entry of the loop (tsp_ga.cpp:47-50). `lastFitnessScore` is declared without
an initial value; the value it happens to hold is the argument `uninitialised`. -/
def initialDriverState (g : Globals) (pop : List Chromosome) (uninitialised : ℚ) : DriverState :=
  { globals := g, parentPopulation := pop, createdGenerationCount := 0,
    lastFitnessScore := uninitialised, mutationPatience := 0 }

/-- The whole of `TspGa::CreateGenerations` (tsp_ga.cpp:46-109), run for at most `fuel` passes of
the loop. -/
def CreateGenerations (X : Externals) (rnd : Nat → GenRandom) (fuel : Nat) (g : Globals)
    (parentPopulation : List Chromosome) (uninitialised : ℚ) : RunResult :=
  generationLoop X rnd g.config.maxGenerations fuel 0 0 []
    (initialDriverState g parentPopulation uninitialised)

/-- Assumption on the absent `Chromosome::ShuffleGenes`: it keeps gene 0 in place and reorders
the other genes. -/
def ShuffleGenesKeepsStart (X : Externals) : Prop :=
  ∀ (seed : Nat) (c : Chromosome) (x : Nat) (xs : List Nat), c.genes = x :: xs →
    ∃ ys, (X.ShuffleGenes seed c).genes = x :: ys ∧ ys.Perm xs

/-- A tour pinned at the start point: gene 0 is `startPointId` and the genes are a reordering of
the identifiers `1..chromosomeSize`. -/
def PinnedTour (cfg : TspGaConfig) (genes : List Nat) : Prop :=
  genes.head? = some cfg.startPointId ∧ genes.Perm (List.range' 1 cfg.chromosomeSize)

/-- Validity of a chromosome, `Chromosome::IsValid` as the specification describes it: the genes
are a reordering of the identifiers `1..chromosomeSize`. -/
def IsValid (cfg : TspGaConfig) (c : Chromosome) : Prop :=
  c.genes.Perm (List.range' 1 cfg.chromosomeSize)

instance IsValid_decidable (cfg : TspGaConfig) (c : Chromosome) : Decidable (IsValid cfg c) :=
  inferInstanceAs (Decidable (c.genes.Perm (List.range' 1 cfg.chromosomeSize)))

/-- Assumption on the absent `Crossover::ApplyPartiallyMapped`: two valid parents give two valid
children. -/
def PMXPreservesValid (X : Externals) (cfg : TspGaConfig) : Prop :=
  ∀ (seed : Nat) (c1 c2 : Chromosome), IsValid cfg c1 → IsValid cfg c2 →
    IsValid cfg (X.ApplyPartiallyMapped seed c1 c2).1 ∧
    IsValid cfg (X.ApplyPartiallyMapped seed c1 c2).2

/-- Assumption on the absent `Mutation::ApplyInversion`: a valid chromosome stays valid. -/
def InversionPreservesValid (X : Externals) (cfg : TspGaConfig) : Prop :=
  ∀ (seed : Nat) (c : Chromosome), IsValid cfg c → IsValid cfg (X.ApplyInversion seed c)

/-- Modelled from the spec: `chromosome.cpp` is absent. The tour length of section 4.1: the sum of
the oracle distances of consecutive genes plus the closing edge from the last gene to gene 0. -/
def tourLength (dist : Nat → Nat → ℚ) (genes : List Nat) : ℚ :=
  match genes with
  | [] => 0
  | first :: rest =>
    ((first :: rest).zipWith dist (rest ++ [first])).sum

/-- Modelled from the spec: the stagnation counter after a generation whose post-selection best
fitness is `best`, when the previous generation had the post-selection best `previousBest`:
"equal ⇒ increment stagnation counter, else reset to 0". -/
def specStagnationCounter (counter : Int) (best previousBest : ℚ) : Int :=
  if best = previousBest then counter + 1 else 0

/-! ## Concrete inputs -/

/-- A configuration with the given best and rest fractions. -/
def exampleConfig (best rest : ℚ) : TspGaConfig :=
  { chromosomeSize := 3, startPointId := 1, initialPopulationSize := 3,
    eliteChromosomesPct := 1 / 2, bestChromosomesPct := best, restChromosomesPct := rest,
    bestChromosomesDecreaseRate := 1 / 10, mutationRate := 1 / 10,
    mutationIncreaseRate := 1 / 10, mutationPatience := 3, maxGenerations := 5 }

/-- Three tours over the cities 1, 2, 3 with fitness 7, 5 and 9. -/
def examplePopulation : List Chromosome :=
  [⟨[1, 2, 3], 7⟩, ⟨[1, 3, 2], 5⟩, ⟨[2, 1, 3], 9⟩]

/-- Globals with the given fractions and a stored best-ever chromosome. -/
def exampleGlobals (best rest : ℚ) (bestEver : Chromosome) : Globals :=
  { tspConfig := exampleConfig best rest, config := exampleConfig best rest,
    bestChromosome := bestEver }

/-- The globals after two calls on `examplePopulation` started with both fractions 1. -/
def exampleGlobalsAfterTwoCalls : Globals :=
  { tspConfig := { exampleConfig 1 1 with bestChromosomesPct := 81 / 100 },
    config := exampleConfig 1 1,
    bestChromosome := ⟨[1, 3, 2], 5⟩ }

/-- A total pseudo-crossover and tour length used to run the operations on concrete inputs. -/
def exampleExternals : Externals :=
  { fitness := fun genes => ((genes.foldl (fun acc x => 2 * acc + x) 0 : Nat) : ℚ),
    ShuffleGenes := fun seed c =>
      { c with genes := c.genes.take 1 ++ shuffleList [seed, seed + 1, seed + 2] (c.genes.drop 1) },
    ApplyPartiallyMapped := fun seed c1 c2 => if seed % 2 = 0 then (c1, c2) else (c2, c1),
    ApplyInversion := fun _ c => { c with genes := c.genes.take 1 ++ (c.genes.drop 1).reverse } }

/-- Cities on a line at the coordinate of their identifier: the tour length for the distance
`|a - b|`, a crossover that hands back its parents (swapped for an odd seed), and the inversion
of the two genes after the start gene. -/
def lineExternals : Externals :=
  { fitness := tourLength (fun a b => |((a : ℚ) - (b : ℚ))|),
    ShuffleGenes := fun seed c =>
      { c with genes := c.genes.take 1 ++ shuffleList [seed, seed + 1, seed + 2] (c.genes.drop 1) },
    ApplyPartiallyMapped := fun seed c1 c2 => if seed % 2 = 0 then (c1, c2) else (c2, c1),
    ApplyInversion := fun _ c =>
      { c with genes := c.genes.take 1 ++ ((c.genes.drop 1).take 2).reverse ++ c.genes.drop 3 } }

/-- Random choices that leave every shuffled range in its order. -/
def identityRandom : Nat → GenRandom :=
  fun _ => { selectDraws := [], mutateSeeds := fun k => k, shuffleDraws := [],
             pmxSeeds := fun _ => 0 }

/-- A driver configuration: every chromosome survives selection, no elite, the given patience and
generation limit. -/
def driverConfig (chromosomeSize : Nat) (patience : Int) (maxGenerations : Nat) : TspGaConfig :=
  { chromosomeSize := chromosomeSize, startPointId := 1, initialPopulationSize := 5,
    eliteChromosomesPct := 0, bestChromosomesPct := 1, restChromosomesPct := 1,
    bestChromosomesDecreaseRate := 0, mutationRate := 1 / 10,
    mutationIncreaseRate := 1 / 10, mutationPatience := patience,
    maxGenerations := maxGenerations }

/-- Globals for the driver runs, with an empty best-ever chromosome. -/
def driverGlobals (cfg : TspGaConfig) : Globals :=
  { tspConfig := cfg, config := cfg, bestChromosome := ⟨[], 0⟩ }

/-- Five tours over four cities on a line: one of length 6 and four of length 8. -/
def fourCityPopulation : List Chromosome :=
  [⟨[1, 2, 3, 4], 6⟩, ⟨[1, 3, 2, 4], 8⟩, ⟨[1, 3, 2, 4], 8⟩, ⟨[1, 3, 2, 4], 8⟩, ⟨[1, 3, 2, 4], 8⟩]

/-- Five tours over three cities on a line: every tour has length 4. -/
def threeCityPopulation : List Chromosome :=
  [⟨[1, 2, 3], 4⟩, ⟨[1, 3, 2], 4⟩, ⟨[1, 2, 3], 4⟩, ⟨[1, 3, 2], 4⟩, ⟨[1, 2, 3], 4⟩]

/-- The four-city configuration with half of the population carried over as elite. -/
def eliteDriverConfig : TspGaConfig :=
  { driverConfig 4 1 3 with eliteChromosomesPct := 1 / 2 }

/-- The state in which the first pass of the elite four-city run stands before line 76. -/
def eliteReadyState : DriverState :=
  { globals :=
      { tspConfig := eliteDriverConfig, config := eliteDriverConfig,
        bestChromosome := ⟨[1, 2, 3, 4], 6⟩ },
    parentPopulation := fourCityPopulation, createdGenerationCount := 0,
    lastFitnessScore := 6, mutationPatience := 0 }

/-- Globals of a driver run in progress: the mutation rate of `tspConfig` has grown to
`mutationRate` and `best` is the stored best-ever chromosome. -/
def runGlobals (cfg : TspGaConfig) (mutationRate : ℚ) (best : Chromosome) : Globals :=
  { tspConfig := { cfg with mutationRate := mutationRate }, config := cfg,
    bestChromosome := best }

/-- The four-city run (patience 1, limit 3) after its first pass. -/
def fourCityAfterOnePass : DriverState :=
  { globals := runGlobals (driverConfig 4 1 3) (1 / 10) ⟨[1, 2, 3, 4], 6⟩,
    parentPopulation := List.replicate 2 ⟨[1, 2, 3, 4], 6⟩ ++ List.replicate 4 ⟨[1, 3, 2, 4], 8⟩,
    createdGenerationCount := 1, lastFitnessScore := 6, mutationPatience := 0 }

/-- The four-city run after its second pass, in which `Mutate` was called. -/
def fourCityAfterTwoPasses : DriverState :=
  { globals := runGlobals (driverConfig 4 1 3) (11 / 100) ⟨[1, 2, 3, 4], 6⟩,
    parentPopulation := List.replicate 2 ⟨[1, 3, 2, 4], 8⟩ ++ List.replicate 6 ⟨[1, 2, 3, 4], 6⟩,
    createdGenerationCount := 2, lastFitnessScore := 8, mutationPatience := 1 }

/-- The four-city run after its third and last pass. -/
def fourCityAfterThreePasses : DriverState :=
  { globals := runGlobals (driverConfig 4 1 3) (11 / 100) ⟨[1, 2, 3, 4], 6⟩,
    parentPopulation := List.replicate 12 ⟨[1, 2, 3, 4], 6⟩,
    createdGenerationCount := 3, lastFitnessScore := 6, mutationPatience := 0 }

/-- The three-city run (patience 1, limit 3) after its first pass. -/
def threeCityAfterOnePass : DriverState :=
  { globals := runGlobals (driverConfig 3 1 3) (1 / 10) ⟨[1, 2, 3], 4⟩,
    parentPopulation := List.replicate 2 ⟨[1, 2, 3], 4⟩ ++ List.replicate 2 ⟨[1, 3, 2], 4⟩ ++
      List.replicate 2 ⟨[1, 2, 3], 4⟩,
    createdGenerationCount := 1, lastFitnessScore := 4, mutationPatience := 0 }

/-- The three-city run after its second pass, in which `Mutate` was called. -/
def threeCityAfterTwoPasses : DriverState :=
  { globals := runGlobals (driverConfig 3 1 3) (11 / 100) ⟨[1, 2, 3], 4⟩,
    parentPopulation := List.replicate 4 ⟨[1, 3, 2], 4⟩ ++ List.replicate 4 ⟨[1, 2, 3], 4⟩,
    createdGenerationCount := 2, lastFitnessScore := 4, mutationPatience := 1 }

/-- The three-city run after its third and last pass, in which `Mutate` was called again. -/
def threeCityAfterThreePasses : DriverState :=
  { globals := runGlobals (driverConfig 3 1 3) (121 / 1000) ⟨[1, 2, 3], 4⟩,
    parentPopulation := List.replicate 8 ⟨[1, 2, 3], 4⟩ ++ List.replicate 4 ⟨[1, 3, 2], 4⟩,
    createdGenerationCount := 3, lastFitnessScore := 4, mutationPatience := 2 }

/-- The fittest four-city tour. -/
def fourCityBest : Chromosome := ⟨[1, 2, 3, 4], 6⟩

/-- The chromosomes after chromosome 0 which the selection of the third pass of the four-city
run leaves. -/
def fourCityThirdRest : List Chromosome :=
  List.replicate 5 ⟨[1, 2, 3, 4], 6⟩ ++ List.replicate 2 ⟨[1, 3, 2, 4], 8⟩

/-- The three-city tour which `Mutate` makes of the tour 1, 2, 3. -/
def threeCityMutated : Chromosome := ⟨[1, 3, 2], 4⟩

/-- The chromosomes after chromosome 0 which the selection of the third pass of the three-city
run leaves. -/
def threeCityThirdRest : List Chromosome :=
  List.replicate 3 ⟨[1, 3, 2], 4⟩ ++ List.replicate 4 ⟨[1, 2, 3], 4⟩

/-- Globals with the generation limit 0: half of the retained fraction is lost per selection and
nothing of the rest survives. -/
def zeroLimitGlobals : Globals :=
  driverGlobals { driverConfig 3 100 0 with
    restChromosomesPct := 0, bestChromosomesDecreaseRate := 1 / 2 }

/-- Six tours over three cities. -/
def zeroLimitPopulation : List Chromosome := List.replicate 6 ⟨[1, 2, 3], 4⟩

/-- The state in which the run with the generation limit 0 ends. -/
def zeroLimitFinalState : DriverState :=
  { globals :=
      { tspConfig := { zeroLimitGlobals.tspConfig with bestChromosomesPct := 1 / 4 },
        config := zeroLimitGlobals.config, bestChromosome := ⟨[1, 2, 3], 4⟩ },
    parentPopulation := List.replicate 4 ⟨[1, 2, 3], 4⟩,
    createdGenerationCount := 2, lastFitnessScore := 4, mutationPatience := 1 }

/-- Four tours over three cities. -/
def fourChromosomes : List Chromosome := List.replicate 4 ⟨[1, 2, 3], 4⟩

/-! ## Basic facts -/

theorem truncToInt_of_nonneg {q : ℚ} (h : 0 ≤ q) : truncToInt q = ⌊q⌋ := by
  simp [truncToInt, h]

theorem truncToInt_nonneg {q : ℚ} (h : 0 ≤ q) : 0 ≤ truncToInt q := by
  rw [truncToInt_of_nonneg h]
  exact Int.floor_nonneg.mpr h

theorem shuffleList_perm {α : Type} (ds : List Nat) (l : List α) :
    (shuffleList ds l).Perm l := by
  induction l generalizing ds with
  | nil => simp [shuffleList]
  | cons x xs ih =>
    simp only [shuffleList]
    have hle : ds.headD 0 % ((shuffleList ds.tail xs).length + 1) ≤
        (shuffleList ds.tail xs).length := Nat.lt_succ_iff.mp (Nat.mod_lt _ (Nat.succ_pos _))
    exact (List.perm_insertIdx x _ hle).trans ((ih ds.tail).cons x)

theorem shuffleList_length {α : Type} (ds : List Nat) (l : List α) :
    (shuffleList ds l).length = l.length :=
  (shuffleList_perm ds l).length_eq

theorem insertIdx_length_append {α : Type} (A B : List α) (x : α) :
    (A ++ B).insertIdx A.length x = A ++ x :: B := by
  induction A with
  | nil => simp
  | cons a A ih => simp [List.insertIdx_succ_cons, ih]

/-- Every reordering of a range is the outcome of `shuffleList` for some draw. -/
theorem shuffleList_surjective {α : Type} (l l2 : List α) (h : l2.Perm l) :
    ∃ ds, shuffleList ds l = l2 := by
  induction l generalizing l2 with
  | nil => exact ⟨[], by simp [shuffleList, List.perm_nil.mp h]⟩
  | cons x xs ih =>
    have hx : x ∈ l2 := h.symm.subset (List.mem_cons_self x xs)
    obtain ⟨A, B, rfl⟩ := List.append_of_mem hx
    have hAB : (A ++ B).Perm xs := by
      have h1 : (x :: (A ++ B)).Perm (x :: xs) := List.perm_middle.symm.trans h
      exact (List.perm_cons x).mp h1
    obtain ⟨ds, hds⟩ := ih (A ++ B) hAB
    refine ⟨A.length :: ds, ?_⟩
    have hlt : A.length % ((A ++ B).length + 1) = A.length := by
      apply Nat.mod_eq_of_lt
      simp only [List.length_append]
      omega
    simp only [shuffleList, List.tail_cons, List.headD_cons, hds, hlt]
    exact insertIdx_length_append A B x

theorem sortByFitness_perm (pop : List Chromosome) : (sortByFitness pop).Perm pop :=
  List.perm_insertionSort fitnessLE pop

theorem sortByFitness_length (pop : List Chromosome) : (sortByFitness pop).length = pop.length :=
  (sortByFitness_perm pop).length_eq

theorem sortByFitness_sorted (pop : List Chromosome) :
    (sortByFitness pop).Sorted fitnessLE :=
  List.sorted_insertionSort fitnessLE pop

/-! ## Bounds on the iterator offsets of SelectBestChromosomes -/

theorem firstIndexOfRest_eq_floor (cfg : TspGaConfig) (n : Nat)
    (hb0 : 0 ≤ cfg.bestChromosomesPct) :
    firstIndexOfRest cfg n = ⌊(n : ℚ) * cfg.bestChromosomesPct⌋ := by
  unfold firstIndexOfRest
  exact truncToInt_of_nonneg (mul_nonneg (Nat.cast_nonneg n) hb0)

theorem restSize_nonneg (cfg : TspGaConfig) (n : Nat)
    (hb1 : cfg.bestChromosomesPct ≤ 1) (hr0 : 0 ≤ cfg.restChromosomesPct) :
    0 ≤ ((n : ℚ) - (n : ℚ) * cfg.bestChromosomesPct) * cfg.restChromosomesPct := by
  have hn : (0 : ℚ) ≤ n := Nat.cast_nonneg n
  have h1 : (n : ℚ) * cfg.bestChromosomesPct ≤ n := by nlinarith
  exact mul_nonneg (by linarith) hr0

theorem firstIndexToRemove_eq_floor (cfg : TspGaConfig) (n : Nat)
    (hb0 : 0 ≤ cfg.bestChromosomesPct) (hb1 : cfg.bestChromosomesPct ≤ 1)
    (hr0 : 0 ≤ cfg.restChromosomesPct) :
    firstIndexToRemove cfg n = ⌊(n : ℚ) * cfg.bestChromosomesPct⌋ +
      ⌊((n : ℚ) - (n : ℚ) * cfg.bestChromosomesPct) * cfg.restChromosomesPct⌋ := by
  unfold firstIndexToRemove
  rw [firstIndexOfRest_eq_floor cfg n hb0, truncToInt_of_nonneg (restSize_nonneg cfg n hb1 hr0)]

theorem firstIndexOfRest_inRange (cfg : TspGaConfig) (n : Nat)
    (hb0 : 0 ≤ cfg.bestChromosomesPct) (hb1 : cfg.bestChromosomesPct ≤ 1) :
    inRange (firstIndexOfRest cfg n) n := by
  have hn : (0 : ℚ) ≤ n := Nat.cast_nonneg n
  rw [firstIndexOfRest_eq_floor cfg n hb0]
  refine ⟨Int.floor_nonneg.mpr (mul_nonneg hn hb0), ?_⟩
  have h1 : (⌊(n : ℚ) * cfg.bestChromosomesPct⌋ : ℚ) ≤ (n : ℚ) * cfg.bestChromosomesPct :=
    Int.floor_le _
  have h2 : (n : ℚ) * cfg.bestChromosomesPct ≤ n := by nlinarith
  have h3 : (⌊(n : ℚ) * cfg.bestChromosomesPct⌋ : ℚ) ≤ ((n : ℤ) : ℚ) := by
    push_cast
    linarith
  exact_mod_cast h3

theorem firstIndexToRemove_bounds (cfg : TspGaConfig) (n : Nat)
    (hb0 : 0 ≤ cfg.bestChromosomesPct) (hb1 : cfg.bestChromosomesPct ≤ 1)
    (hr0 : 0 ≤ cfg.restChromosomesPct) (hr1 : cfg.restChromosomesPct ≤ 1) :
    firstIndexOfRest cfg n ≤ firstIndexToRemove cfg n ∧ firstIndexToRemove cfg n ≤ (n : Int) := by
  have hn : (0 : ℚ) ≤ n := Nat.cast_nonneg n
  have hq := restSize_nonneg cfg n hb1 hr0
  have hnb : (n : ℚ) * cfg.bestChromosomesPct ≤ n := by nlinarith
  constructor
  · unfold firstIndexToRemove
    have := truncToInt_nonneg hq
    omega
  · rw [firstIndexToRemove_eq_floor cfg n hb0 hb1 hr0]
    have hsum : ⌊(n : ℚ) * cfg.bestChromosomesPct⌋ +
        ⌊((n : ℚ) - (n : ℚ) * cfg.bestChromosomesPct) * cfg.restChromosomesPct⌋ ≤
        ⌊(n : ℚ) * cfg.bestChromosomesPct +
          ((n : ℚ) - (n : ℚ) * cfg.bestChromosomesPct) * cfg.restChromosomesPct⌋ :=
      Int.le_floor_add _ _
    have hle : (n : ℚ) * cfg.bestChromosomesPct +
        ((n : ℚ) - (n : ℚ) * cfg.bestChromosomesPct) * cfg.restChromosomesPct ≤ ((n : ℤ) : ℚ) := by
      push_cast
      nlinarith
    have hfl : ⌊(n : ℚ) * cfg.bestChromosomesPct +
        ((n : ℚ) - (n : ℚ) * cfg.bestChromosomesPct) * cfg.restChromosomesPct⌋ ≤ (n : ℤ) := by
      have := Int.floor_mono hle
      rwa [Int.floor_intCast] at this
    omega

theorem firstIndexToRemove_inRange (cfg : TspGaConfig) (n : Nat)
    (hb0 : 0 ≤ cfg.bestChromosomesPct) (hb1 : cfg.bestChromosomesPct ≤ 1)
    (hr0 : 0 ≤ cfg.restChromosomesPct) (hr1 : cfg.restChromosomesPct ≤ 1) :
    inRange (firstIndexToRemove cfg n) n := by
  have h1 := (firstIndexOfRest_inRange cfg n hb0 hb1).1
  have h2 := firstIndexToRemove_bounds cfg n hb0 hb1 hr0 hr1
  exact ⟨by omega, h2.2⟩

/-! ## The selected population -/

theorem shuffledPopulation_perm (cfg : TspGaConfig) (draws : List Nat) (pop : List Chromosome) :
    (shuffledPopulation cfg draws pop).Perm pop := by
  unfold shuffledPopulation
  refine List.Perm.trans ?_ (sortByFitness_perm pop)
  have h := (shuffleList_perm draws
    ((sortByFitness pop).drop (firstIndexOfRest cfg pop.length).toNat)).append_left
    ((sortByFitness pop).take (firstIndexOfRest cfg pop.length).toNat)
  simpa [List.take_append_drop] using h

theorem selectAndErase_eq (cfg : TspGaConfig) (draws : List Nat) (pop : List Chromosome)
    (hk : inRange (firstIndexOfRest cfg pop.length) pop.length)
    (he : inRange (firstIndexToRemove cfg pop.length) pop.length) :
    selectAndErase cfg draws pop =
      some ((shuffledPopulation cfg draws pop).take (firstIndexToRemove cfg pop.length).toNat) := by
  simp only [selectAndErase, shuffledPopulation, sortByFitness_length, hk, he, if_true]

theorem selectAndErase_some_iff (cfg : TspGaConfig) (draws : List Nat) (pop kept : List Chromosome) :
    selectAndErase cfg draws pop = some kept ↔
      inRange (firstIndexOfRest cfg pop.length) pop.length ∧
      inRange (firstIndexToRemove cfg pop.length) pop.length ∧
      kept = (shuffledPopulation cfg draws pop).take (firstIndexToRemove cfg pop.length).toNat := by
  constructor
  · intro h
    by_cases hk : inRange (firstIndexOfRest cfg pop.length) pop.length
    · by_cases he : inRange (firstIndexToRemove cfg pop.length) pop.length
      · rw [selectAndErase_eq cfg draws pop hk he] at h
        exact ⟨hk, he, (Option.some.inj h).symm⟩
      · simp [selectAndErase, sortByFitness_length, hk, he] at h
    · simp [selectAndErase, sortByFitness_length, hk] at h
  · rintro ⟨hk, he, rfl⟩
    exact selectAndErase_eq cfg draws pop hk he

theorem selectAndErase_length (cfg : TspGaConfig) (draws : List Nat) (pop kept : List Chromosome)
    (h : selectAndErase cfg draws pop = some kept) :
    (kept.length : Int) = firstIndexToRemove cfg pop.length := by
  obtain ⟨_, he, rfl⟩ := (selectAndErase_some_iff cfg draws pop kept).mp h
  have hlen : (shuffledPopulation cfg draws pop).length = pop.length :=
    (shuffledPopulation_perm cfg draws pop).length_eq
  obtain ⟨h0, h1⟩ := he
  rw [List.length_take, hlen]
  omega

theorem SelectBestChromosomes_some_iff (g : Globals) (draws : List Nat) (pop : List Chromosome)
    (g1 : Globals) (pop1 : List Chromosome) :
    SelectBestChromosomes g draws pop = some (g1, pop1) ↔
      ∃ c0 rest, selectAndErase g.tspConfig draws pop = some (c0 :: rest) ∧ pop1 = c0 :: rest ∧
        g1 = { g with bestChromosome := updateBest g.bestChromosome c0,
                      tspConfig := decayBestPct g.tspConfig } := by
  unfold SelectBestChromosomes
  cases hsel : selectAndErase g.tspConfig draws pop with
  | none => simp
  | some kept =>
    cases kept with
    | nil => simp
    | cons c0 rest =>
      simp only [Option.some.injEq, Prod.mk.injEq, List.cons.injEq]
      constructor
      · rintro ⟨rfl, rfl⟩
        exact ⟨c0, rest, ⟨rfl, rfl⟩, rfl, rfl⟩
      · rintro ⟨c, r, ⟨rfl, rfl⟩, rfl, rfl⟩
        exact ⟨rfl, rfl⟩

/-! ## C1: the best-ever chromosome -/

/-- C3. For fractions in [0,1] both iterator offsets of `SelectBestChromosomes` lie in `[0, n]`,
the offset of the erase is `floor(n * bestPct)` plus the truncated rest count, the erase is
defined, and the surviving size `s` satisfies `floor(n * bestPct) ≤ s ≤ n`. -/
theorem C3_erase_in_bounds (cfg : TspGaConfig) (draws : List Nat) (pop : List Chromosome)
    (hb0 : 0 ≤ cfg.bestChromosomesPct) (hb1 : cfg.bestChromosomesPct ≤ 1)
    (hr0 : 0 ≤ cfg.restChromosomesPct) (hr1 : cfg.restChromosomesPct ≤ 1) :
    inRange (firstIndexOfRest cfg pop.length) pop.length ∧
    inRange (firstIndexToRemove cfg pop.length) pop.length ∧
    firstIndexOfRest cfg pop.length = ⌊(pop.length : ℚ) * cfg.bestChromosomesPct⌋ ∧
    ∃ kept, selectAndErase cfg draws pop = some kept ∧
      (kept.length : Int) = firstIndexToRemove cfg pop.length ∧
      ⌊(pop.length : ℚ) * cfg.bestChromosomesPct⌋ ≤ (kept.length : Int) ∧
      kept.length ≤ pop.length := by
  have hk := firstIndexOfRest_inRange cfg pop.length hb0 hb1
  have he := firstIndexToRemove_inRange cfg pop.length hb0 hb1 hr0 hr1
  have hsel := selectAndErase_eq cfg draws pop hk he
  have hlen := selectAndErase_length cfg draws pop _ hsel
  have hb := firstIndexToRemove_bounds cfg pop.length hb0 hb1 hr0 hr1
  have hfl := firstIndexOfRest_eq_floor cfg pop.length hb0
  refine ⟨hk, he, hfl, _, hsel, hlen, ?_, ?_⟩
  · rw [← hfl, hlen]
    exact hb.1
  · have := hb.2
    omega

/-- C3 at a concrete input: three chromosomes, `bestPct = 1/2`, `restPct = 1/2`. -/
theorem C3_erase_in_bounds_witness :
    inRange (firstIndexOfRest (exampleConfig (1 / 2) (1 / 2)) examplePopulation.length)
      examplePopulation.length ∧
    inRange (firstIndexToRemove (exampleConfig (1 / 2) (1 / 2)) examplePopulation.length)
      examplePopulation.length ∧
    firstIndexOfRest (exampleConfig (1 / 2) (1 / 2)) examplePopulation.length =
      ⌊(examplePopulation.length : ℚ) * (exampleConfig (1 / 2) (1 / 2)).bestChromosomesPct⌋ ∧
    ∃ kept, selectAndErase (exampleConfig (1 / 2) (1 / 2)) [2, 0] examplePopulation = some kept ∧
      (kept.length : Int) =
        firstIndexToRemove (exampleConfig (1 / 2) (1 / 2)) examplePopulation.length ∧
      ⌊(examplePopulation.length : ℚ) * (exampleConfig (1 / 2) (1 / 2)).bestChromosomesPct⌋ ≤
        (kept.length : Int) ∧
      kept.length ≤ examplePopulation.length :=
  C3_erase_in_bounds (exampleConfig (1 / 2) (1 / 2)) [2, 0] examplePopulation
    (by decide!) (by decide!) (by decide!) (by decide!)

/-! ## C4: the deterministic part of the selection -/

theorem map_fitness_sortByFitness (pop : List Chromosome) :
    (sortByFitness pop).map Chromosome.fitnessScore =
      (pop.map Chromosome.fitnessScore).insertionSort (· ≤ ·) := by
  apply List.eq_of_perm_of_sorted (r := (· ≤ ·))
  · exact ((sortByFitness_perm pop).map _).trans
      (List.perm_insertionSort (· ≤ ·) (pop.map Chromosome.fitnessScore)).symm
  · exact List.pairwise_map.mpr (sortByFitness_sorted pop)
  · exact List.sorted_insertionSort (· ≤ ·) _

theorem take_best_of_shuffled (cfg : TspGaConfig) (draws : List Nat) (pop : List Chromosome)
    (hk : inRange (firstIndexOfRest cfg pop.length) pop.length)
    (hke : firstIndexOfRest cfg pop.length ≤ firstIndexToRemove cfg pop.length) :
    ((shuffledPopulation cfg draws pop).take (firstIndexToRemove cfg pop.length).toNat).take
        (firstIndexOfRest cfg pop.length).toNat =
      (sortByFitness pop).take (firstIndexOfRest cfg pop.length).toNat := by
  obtain ⟨hk0, hk1⟩ := hk
  have hlen : ((sortByFitness pop).take (firstIndexOfRest cfg pop.length).toNat).length =
      (firstIndexOfRest cfg pop.length).toNat := by
    rw [List.length_take, sortByFitness_length]
    omega
  have hmin : min (firstIndexOfRest cfg pop.length).toNat
      (firstIndexToRemove cfg pop.length).toNat = (firstIndexOfRest cfg pop.length).toNat := by
    apply Nat.min_eq_left
    omega
  rw [List.take_take, hmin]
  unfold shuffledPopulation
  rw [List.take_append_of_le_length (le_of_eq hlen.symm), List.take_take, Nat.min_self]

/-- C4. For fractions in [0,1], after the erase of `SelectBestChromosomes` the first
`bestCount = floor(n * bestPct)` chromosomes are the first `bestCount` chromosomes of the sorted
population whatever the shuffle draws, they are in ascending fitness order, their fitness values
are the `bestCount` smallest fitness values of the input, and the surviving population is a
sub-multiset of the input population. -/
theorem C4_best_part_sorted (cfg : TspGaConfig) (draws : List Nat) (pop : List Chromosome)
    (hb0 : 0 ≤ cfg.bestChromosomesPct) (hb1 : cfg.bestChromosomesPct ≤ 1)
    (hr0 : 0 ≤ cfg.restChromosomesPct) (hr1 : cfg.restChromosomesPct ≤ 1) :
    ∃ kept, selectAndErase cfg draws pop = some kept ∧
      (kept.take ⌊(pop.length : ℚ) * cfg.bestChromosomesPct⌋.toNat).length =
        ⌊(pop.length : ℚ) * cfg.bestChromosomesPct⌋.toNat ∧
      kept.take ⌊(pop.length : ℚ) * cfg.bestChromosomesPct⌋.toNat =
        (sortByFitness pop).take ⌊(pop.length : ℚ) * cfg.bestChromosomesPct⌋.toNat ∧
      ((kept.take ⌊(pop.length : ℚ) * cfg.bestChromosomesPct⌋.toNat).map
        Chromosome.fitnessScore).Sorted (· ≤ ·) ∧
      (kept.take ⌊(pop.length : ℚ) * cfg.bestChromosomesPct⌋.toNat).map Chromosome.fitnessScore =
        ((pop.map Chromosome.fitnessScore).insertionSort (· ≤ ·)).take
          ⌊(pop.length : ℚ) * cfg.bestChromosomesPct⌋.toNat ∧
      kept.Subperm pop := by
  have hk := firstIndexOfRest_inRange cfg pop.length hb0 hb1
  have he := firstIndexToRemove_inRange cfg pop.length hb0 hb1 hr0 hr1
  have hb := firstIndexToRemove_bounds cfg pop.length hb0 hb1 hr0 hr1
  have hsel := selectAndErase_eq cfg draws pop hk he
  have hfl := firstIndexOfRest_eq_floor cfg pop.length hb0
  have htake := take_best_of_shuffled cfg draws pop hk hb.1
  rw [hfl] at htake
  have hmap : ((sortByFitness pop).take ⌊(pop.length : ℚ) * cfg.bestChromosomesPct⌋.toNat).map
      Chromosome.fitnessScore =
      ((pop.map Chromosome.fitnessScore).insertionSort (· ≤ ·)).take
        ⌊(pop.length : ℚ) * cfg.bestChromosomesPct⌋.toNat := by
    rw [List.map_take, map_fitness_sortByFitness]
  refine ⟨_, hsel, ?_, htake, ?_, ?_, ?_⟩
  · rw [htake, List.length_take, sortByFitness_length]
    obtain ⟨hk0, hk1⟩ := hk
    rw [hfl] at hk0 hk1
    omega
  · rw [htake, hmap]
    exact (List.sorted_insertionSort (· ≤ ·) _).sublist (List.take_sublist _ _)
  · rw [htake, hmap]
  · exact ((List.take_sublist _ _).subperm).trans (shuffledPopulation_perm cfg draws pop).subperm

/-- C4 at a concrete input: three chromosomes, `bestPct = 2/3`, `restPct = 1/2`. -/
theorem C4_best_part_sorted_witness :
    ∃ kept, selectAndErase (exampleConfig (2 / 3) (1 / 2)) [1, 4] examplePopulation = some kept ∧
      (kept.take ⌊(examplePopulation.length : ℚ) *
          (exampleConfig (2 / 3) (1 / 2)).bestChromosomesPct⌋.toNat).length =
        ⌊(examplePopulation.length : ℚ) *
          (exampleConfig (2 / 3) (1 / 2)).bestChromosomesPct⌋.toNat ∧
      kept.take ⌊(examplePopulation.length : ℚ) *
          (exampleConfig (2 / 3) (1 / 2)).bestChromosomesPct⌋.toNat =
        (sortByFitness examplePopulation).take ⌊(examplePopulation.length : ℚ) *
          (exampleConfig (2 / 3) (1 / 2)).bestChromosomesPct⌋.toNat ∧
      ((kept.take ⌊(examplePopulation.length : ℚ) *
          (exampleConfig (2 / 3) (1 / 2)).bestChromosomesPct⌋.toNat).map
        Chromosome.fitnessScore).Sorted (· ≤ ·) ∧
      (kept.take ⌊(examplePopulation.length : ℚ) *
          (exampleConfig (2 / 3) (1 / 2)).bestChromosomesPct⌋.toNat).map
        Chromosome.fitnessScore =
        ((examplePopulation.map Chromosome.fitnessScore).insertionSort (· ≤ ·)).take
          ⌊(examplePopulation.length : ℚ) *
            (exampleConfig (2 / 3) (1 / 2)).bestChromosomesPct⌋.toNat ∧
      kept.Subperm examplePopulation :=
  C4_best_part_sorted (exampleConfig (2 / 3) (1 / 2)) [1, 4] examplePopulation
    (by decide!) (by decide!) (by decide!) (by decide!)

/-! ## C5: the decay of the retained fraction -/

theorem SelectBestChromosomes_tspConfig (g : Globals) (draws : List Nat) (pop : List Chromosome)
    (g1 : Globals) (pop1 : List Chromosome)
    (h : SelectBestChromosomes g draws pop = some (g1, pop1)) :
    g1.tspConfig = decayBestPct g.tspConfig := by
  obtain ⟨c0, rest, _, _, rfl⟩ := (SelectBestChromosomes_some_iff g draws pop g1 pop1).mp h
  rfl

theorem selectCalls_cons (g : Globals) (draws : List Nat) (pop : List Chromosome)
    (cs : List (List Nat × List Chromosome)) (g2 : Globals)
    (h : selectCalls g ((draws, pop) :: cs) = some g2) :
    ∃ g1 pop1, SelectBestChromosomes g draws pop = some (g1, pop1) ∧ selectCalls g1 cs = some g2 := by
  simp only [selectCalls] at h
  cases hs : SelectBestChromosomes g draws pop with
  | none => simp [hs] at h
  | some r =>
    obtain ⟨g1, pop1⟩ := r
    rw [hs] at h
    exact ⟨g1, pop1, rfl, h⟩

theorem selectCalls_decay (calls : List (List Nat × List Chromosome)) (g g2 : Globals)
    (h : selectCalls g calls = some g2) :
    g2.tspConfig.bestChromosomesPct = g.tspConfig.bestChromosomesPct *
        (1 - g.tspConfig.bestChromosomesDecreaseRate) ^ calls.length ∧
      g2.tspConfig.bestChromosomesDecreaseRate = g.tspConfig.bestChromosomesDecreaseRate := by
  induction calls generalizing g with
  | nil =>
    simp only [selectCalls, Option.some.injEq] at h
    subst h
    simp
  | cons c cs ih =>
    obtain ⟨draws, pop⟩ := c
    obtain ⟨g1, pop1, hs, hrest⟩ := selectCalls_cons g draws pop cs g2 h
    have hcfg := SelectBestChromosomes_tspConfig g draws pop g1 pop1 hs
    obtain ⟨h1, h2⟩ := ih g1 hrest
    rw [h1, h2, hcfg]
    simp only [decayBestPct, List.length_cons, pow_succ]
    exact ⟨by ring, trivial⟩

theorem selectCalls_append (cs1 cs2 : List (List Nat × List Chromosome)) (g g2 : Globals)
    (h : selectCalls g (cs1 ++ cs2) = some g2) :
    ∃ g1, selectCalls g cs1 = some g1 ∧ selectCalls g1 cs2 = some g2 := by
  induction cs1 generalizing g with
  | nil => exact ⟨g, rfl, h⟩
  | cons c cs ih =>
    obtain ⟨draws, pop⟩ := c
    obtain ⟨ga, pa, hs, hrest⟩ := selectCalls_cons g draws pop (cs ++ cs2) g2 h
    obtain ⟨g1, h1, h2⟩ := ih ga hrest
    refine ⟨g1, ?_, h2⟩
    simp only [selectCalls, hs]
    exact h1

/-- C5. Every completed call of `SelectBestChromosomes` replaces `bestChromosomesPct` by
`bestChromosomesPct * (1 - bestChromosomesDecreaseRate)` and leaves the rate unchanged, so after
`k` completed calls the fraction is the initial value times `(1 - rate)^k`; for `0 ≤ rate ≤ 1` and
a non-negative initial value the fraction after any prefix of the calls is non-negative, and it
does not increase from one prefix to a longer one. -/
theorem C5_best_pct_decay (g g2 : Globals) (calls : List (List Nat × List Chromosome))
    (h : selectCalls g calls = some g2) :
    g2.tspConfig.bestChromosomesPct = g.tspConfig.bestChromosomesPct *
        (1 - g.tspConfig.bestChromosomesDecreaseRate) ^ calls.length ∧
      g2.tspConfig.bestChromosomesDecreaseRate = g.tspConfig.bestChromosomesDecreaseRate ∧
      (∀ draws pop g1 pop1, SelectBestChromosomes g draws pop = some (g1, pop1) →
        g1.tspConfig.bestChromosomesPct = g.tspConfig.bestChromosomesPct *
          (1 - g.tspConfig.bestChromosomesDecreaseRate)) ∧
      (0 ≤ g.tspConfig.bestChromosomesDecreaseRate → g.tspConfig.bestChromosomesDecreaseRate ≤ 1 →
        0 ≤ g.tspConfig.bestChromosomesPct →
        ∀ cs1 cs2 g1, calls = cs1 ++ cs2 → selectCalls g cs1 = some g1 →
          0 ≤ g2.tspConfig.bestChromosomesPct ∧
          g2.tspConfig.bestChromosomesPct ≤ g1.tspConfig.bestChromosomesPct ∧
          g1.tspConfig.bestChromosomesPct ≤ g.tspConfig.bestChromosomesPct) := by
  refine ⟨(selectCalls_decay calls g g2 h).1, (selectCalls_decay calls g g2 h).2, ?_, ?_⟩
  · intro draws pop g1 pop1 hs
    rw [SelectBestChromosomes_tspConfig g draws pop g1 pop1 hs]
    rfl
  · intro hr0 hr1 hp0 cs1 cs2 g1 hsplit h1
    subst hsplit
    obtain ⟨g1', h1', h2⟩ := selectCalls_append cs1 cs2 g g2 h
    rw [h1] at h1'
    obtain rfl := Option.some.inj h1'
    obtain ⟨ha, hra⟩ := selectCalls_decay cs1 g g1 h1
    obtain ⟨hb, _⟩ := selectCalls_decay cs2 g1 g2 h2
    have hq0 : 0 ≤ 1 - g.tspConfig.bestChromosomesDecreaseRate := by linarith
    have hq1 : 1 - g.tspConfig.bestChromosomesDecreaseRate ≤ 1 := by linarith
    have hg1 : 0 ≤ g1.tspConfig.bestChromosomesPct := by
      rw [ha]
      exact mul_nonneg hp0 (pow_nonneg hq0 _)
    refine ⟨?_, ?_, ?_⟩
    · rw [hb, hra]
      exact mul_nonneg hg1 (pow_nonneg hq0 _)
    · rw [hb, hra]
      exact mul_le_of_le_one_right hg1 (pow_le_one₀ hq0 hq1)
    · rw [ha]
      exact mul_le_of_le_one_right hp0 (pow_le_one₀ hq0 hq1)

/-- C5 at a concrete input: two calls on three chromosomes, rate 1/10, initial fraction 1. -/
theorem C5_best_pct_decay_witness :
    selectCalls (exampleGlobals 1 1 ⟨[], 0⟩)
        [([], examplePopulation), ([2, 1], examplePopulation)] =
        some exampleGlobalsAfterTwoCalls ∧
      exampleGlobalsAfterTwoCalls.tspConfig.bestChromosomesPct =
        (exampleGlobals 1 1 ⟨[], 0⟩).tspConfig.bestChromosomesPct *
          (1 - (exampleGlobals 1 1 ⟨[], 0⟩).tspConfig.bestChromosomesDecreaseRate) ^
            [(([] : List Nat), examplePopulation), ([2, 1], examplePopulation)].length :=
  ⟨by decide!, (C5_best_pct_decay (exampleGlobals 1 1 ⟨[], 0⟩) exampleGlobalsAfterTwoCalls
    [([], examplePopulation), ([2, 1], examplePopulation)] (by decide!)).1⟩

/-! ## GenerateSubPopulation: the loops -/

theorem crossPair_eq (X : Externals) (seeds : Nat → Nat) (pop : List Chromosome) (k : Nat)
    (newPopulation : List Chromosome) (i j : Nat) (c1 c2 : Chromosome)
    (hi : pop[i]? = some c1) (hj : pop[j]? = some c2) :
    crossPair X seeds pop k newPopulation i j =
      some (newPopulation ++
        [betterOffspring (createOffspringPairs X (seeds (2 * k)) (seeds (2 * k + 1)) c1 c2).1.1
            (createOffspringPairs X (seeds (2 * k)) (seeds (2 * k + 1)) c1 c2).1.2,
         betterOffspring (createOffspringPairs X (seeds (2 * k)) (seeds (2 * k + 1)) c1 c2).2.1
            (createOffspringPairs X (seeds (2 * k)) (seeds (2 * k + 1)) c1 c2).2.2]) := by
  simp [crossPair, hi, hj, chooseAndAddBetterOffspring]

theorem crossPairs_spec (X : Externals) (seeds : Nat → Nat) (pop : List Chromosome)
    (ps : List (Nat × Nat)) (k : Nat) (newPopulation : List Chromosome)
    (hps : ∀ q ∈ ps, q.1 < pop.length ∧ q.2 < pop.length) :
    ∃ np, crossPairs X seeds pop ps k newPopulation = some np ∧
      np.length = newPopulation.length + 2 * ps.length ∧
      np.take newPopulation.length = newPopulation := by
  induction ps generalizing k newPopulation with
  | nil => exact ⟨newPopulation, rfl, by simp, by simp⟩
  | cons q ps ih =>
    obtain ⟨i, j⟩ := q
    obtain ⟨hi, hj⟩ := hps (i, j) (List.mem_cons_self _ _)
    have hi1 : pop[i]? = some pop[i] := List.getElem?_eq_getElem hi
    have hj1 : pop[j]? = some pop[j] := List.getElem?_eq_getElem hj
    have hstep := crossPair_eq X seeds pop k newPopulation i j _ _ hi1 hj1
    obtain ⟨np, hnp, hlen, htake⟩ := ih (k + 1) _ (fun q hq => hps q (List.mem_cons_of_mem _ hq))
    refine ⟨np, ?_, ?_, ?_⟩
    · simp only [crossPairs, hstep]
      exact hnp
    · rw [hlen]
      simp only [List.length_append, List.length_cons, List.length_nil]
      omega
    · have h2 := congrArg (List.take newPopulation.length) htake
      rw [List.take_take] at h2
      simp only [List.length_append, List.length_cons, List.length_nil] at h2
      rw [Nat.min_eq_left (by omega)] at h2
      rw [h2, List.take_left']
      rfl

theorem sequentialPairIndices_inRange (n : Nat) (hn : 2 ≤ n) :
    ∀ q ∈ sequentialPairIndices n, q.1 < n ∧ q.2 < n := by
  intro q hq
  simp only [sequentialPairIndices, List.mem_map, List.mem_range] at hq
  obtain ⟨a, ha, rfl⟩ := hq
  simp only
  omega

theorem mem_everyPairIndices (n i j : Nat) :
    (i, j) ∈ everyPairIndices n ↔ i < j ∧ j < n := by
  simp only [everyPairIndices, List.mem_flatMap, List.mem_range, List.mem_map, List.mem_range'_1,
    Prod.mk.injEq]
  constructor
  · rintro ⟨a, _, b, ⟨hb1, hb2⟩, rfl, rfl⟩
    omega
  · rintro ⟨h1, h2⟩
    exact ⟨i, by omega, j, ⟨by omega, by omega⟩, rfl, rfl⟩

theorem everyPairIndices_inRange (n : Nat) :
    ∀ q ∈ everyPairIndices n, q.1 < n ∧ q.2 < n := by
  rintro ⟨i, j⟩ hq
  have := (mem_everyPairIndices n i j).mp hq
  simp only
  omega

theorem lastEliteIndex_eq_floor (cfg : TspGaConfig) (n : Nat)
    (hp0 : 0 ≤ cfg.eliteChromosomesPct) :
    lastEliteIndex cfg n = ⌊(n : ℚ) * cfg.eliteChromosomesPct⌋ := by
  unfold lastEliteIndex
  exact truncToInt_of_nonneg (mul_nonneg (Nat.cast_nonneg n) hp0)

theorem lastEliteIndex_inRange (cfg : TspGaConfig) (n : Nat)
    (hp0 : 0 ≤ cfg.eliteChromosomesPct) (hp1 : cfg.eliteChromosomesPct ≤ 1) :
    inRange (lastEliteIndex cfg n) n := by
  have hn : (0 : ℚ) ≤ n := Nat.cast_nonneg n
  rw [lastEliteIndex_eq_floor cfg n hp0]
  refine ⟨Int.floor_nonneg.mpr (mul_nonneg hn hp0), ?_⟩
  have h1 : (⌊(n : ℚ) * cfg.eliteChromosomesPct⌋ : ℚ) ≤ (n : ℚ) * cfg.eliteChromosomesPct :=
    Int.floor_le _
  have h2 : (n : ℚ) * cfg.eliteChromosomesPct ≤ n := by nlinarith
  have h3 : (⌊(n : ℚ) * cfg.eliteChromosomesPct⌋ : ℚ) ≤ ((n : ℤ) : ℚ) := by
    push_cast
    linarith
  exact_mod_cast h3

theorem GenerateSubPopulation_eq (X : Externals) (g : Globals) (strategy : CrossoverStrategy)
    (draws : List Nat) (seeds : Nat → Nat) (pop : List Chromosome)
    (he : inRange (lastEliteIndex g.config pop.length) pop.length)
    (hn : minimumSize strategy ≤ pop.length) :
    GenerateSubPopulation X g strategy draws seeds pop =
      (crossPairs X seeds (parentsOf strategy draws pop) (pairIndices strategy pop.length) 0
        (pop.take (lastEliteIndex g.config pop.length).toNat)).map
        fun np => (np, parentsOf strategy draws pop) := by
  cases strategy <;>
    simp only [GenerateSubPopulation, he, if_true, parentsOf, pairIndices] <;>
    simp only [minimumSize] at hn <;>
    simp only [hn, if_true]

theorem pairIndices_inRange (strategy : CrossoverStrategy) (n : Nat)
    (hn : minimumSize strategy ≤ n) :
    ∀ q ∈ pairIndices strategy n, q.1 < n ∧ q.2 < n := by
  cases strategy
  · exact everyPairIndices_inRange n
  · exact sequentialPairIndices_inRange n hn
  · exact sequentialPairIndices_inRange n hn

theorem parentsOf_length (strategy : CrossoverStrategy) (draws : List Nat)
    (pop : List Chromosome) : (parentsOf strategy draws pop).length = pop.length := by
  cases strategy
  · rfl
  · rfl
  · exact shuffleList_length draws pop

theorem GenerateSubPopulation_spec (X : Externals) (g : Globals) (strategy : CrossoverStrategy)
    (draws : List Nat) (seeds : Nat → Nat) (pop : List Chromosome)
    (he : inRange (lastEliteIndex g.config pop.length) pop.length)
    (hn : minimumSize strategy ≤ pop.length) :
    ∃ np, GenerateSubPopulation X g strategy draws seeds pop =
        some (np, parentsOf strategy draws pop) ∧
      np.length = (lastEliteIndex g.config pop.length).toNat +
        2 * (pairIndices strategy pop.length).length ∧
      np.take (lastEliteIndex g.config pop.length).toNat =
        pop.take (lastEliteIndex g.config pop.length).toNat := by
  have hidx : ∀ q ∈ pairIndices strategy pop.length,
      q.1 < (parentsOf strategy draws pop).length ∧ q.2 < (parentsOf strategy draws pop).length := by
    rw [parentsOf_length]
    exact pairIndices_inRange strategy pop.length hn
  obtain ⟨np, hnp, hlen, htake⟩ := crossPairs_spec X seeds (parentsOf strategy draws pop)
    (pairIndices strategy pop.length) 0 (pop.take (lastEliteIndex g.config pop.length).toNat) hidx
  have hel : (pop.take (lastEliteIndex g.config pop.length).toNat).length =
      (lastEliteIndex g.config pop.length).toNat := by
    obtain ⟨h0, h1⟩ := he
    rw [List.length_take]
    omega
  rw [hel] at hlen htake
  refine ⟨np, ?_, hlen, htake⟩
  rw [GenerateSubPopulation_eq X g strategy draws seeds pop he hn, hnp]
  rfl

/-! ## C6: the elite is carried forward unmodified -/

/-- C6. For every strategy, every elite fraction in [0,1] and every population on which the loop
of the strategy stays inside the vector, `GenerateSubPopulation` returns a population whose first
`eliteCount = floor(n * eliteChromosomesPct)` chromosomes are the first `eliteCount` chromosomes
of the population as it stood on entry (same order, same genes and fitness); the receiver is
afterwards a reordering of the entry population. -/
theorem C6_elite_carried_forward (X : Externals) (g : Globals) (strategy : CrossoverStrategy)
    (draws : List Nat) (seeds : Nat → Nat) (pop : List Chromosome)
    (hp0 : 0 ≤ g.config.eliteChromosomesPct) (hp1 : g.config.eliteChromosomesPct ≤ 1)
    (hn : minimumSize strategy ≤ pop.length) :
    ∃ np receiver, GenerateSubPopulation X g strategy draws seeds pop = some (np, receiver) ∧
      np.take ⌊(pop.length : ℚ) * g.config.eliteChromosomesPct⌋.toNat =
        pop.take ⌊(pop.length : ℚ) * g.config.eliteChromosomesPct⌋.toNat ∧
      (np.take ⌊(pop.length : ℚ) * g.config.eliteChromosomesPct⌋.toNat).length =
        ⌊(pop.length : ℚ) * g.config.eliteChromosomesPct⌋.toNat ∧
      receiver.Perm pop := by
  have he := lastEliteIndex_inRange g.config pop.length hp0 hp1
  obtain ⟨np, hnp, _, htake⟩ := GenerateSubPopulation_spec X g strategy draws seeds pop he hn
  have hfl := lastEliteIndex_eq_floor g.config pop.length hp0
  rw [hfl] at htake
  refine ⟨np, _, hnp, htake, ?_, ?_⟩
  · rw [htake, List.length_take]
    obtain ⟨h0, h1⟩ := he
    rw [hfl] at h0 h1
    omega
  · cases strategy
    · exact List.Perm.refl _
    · exact List.Perm.refl _
    · exact shuffleList_perm draws pop

/-- C6 at a concrete input: `ShuffledSequentialPair` on three chromosomes, elite fraction 1/2. -/
theorem C6_elite_carried_forward_witness :
    ∃ np receiver, GenerateSubPopulation exampleExternals (exampleGlobals 1 1 ⟨[], 0⟩)
        .ShuffledSequentialPair [1, 1, 1] (fun k => k) examplePopulation = some (np, receiver) ∧
      np.take ⌊(examplePopulation.length : ℚ) *
          (exampleGlobals 1 1 ⟨[], 0⟩).config.eliteChromosomesPct⌋.toNat =
        examplePopulation.take ⌊(examplePopulation.length : ℚ) *
          (exampleGlobals 1 1 ⟨[], 0⟩).config.eliteChromosomesPct⌋.toNat ∧
      (np.take ⌊(examplePopulation.length : ℚ) *
          (exampleGlobals 1 1 ⟨[], 0⟩).config.eliteChromosomesPct⌋.toNat).length =
        ⌊(examplePopulation.length : ℚ) *
          (exampleGlobals 1 1 ⟨[], 0⟩).config.eliteChromosomesPct⌋.toNat ∧
      receiver.Perm examplePopulation :=
  C6_elite_carried_forward exampleExternals (exampleGlobals 1 1 ⟨[], 0⟩) .ShuffledSequentialPair
    [1, 1, 1] (fun k => k) examplePopulation (by decide!) (by decide!) (by decide)

/-! ## C7: two offspring pairs, one child kept from each -/

theorem betterOffspring_fitness (o1 o2 : Chromosome) :
    (betterOffspring o1 o2).fitnessScore = min o1.fitnessScore o2.fitnessScore := by
  unfold betterOffspring
  split_ifs with h
  · exact (min_eq_left h).symm
  · exact (min_eq_right (le_of_lt (not_le.mp h))).symm

/-- C7. For a parent pair read at valid indices, the loop body applies PMX twice (seeds `2k` and
`2k+1`), computes the fitness of the four children and appends exactly two chromosomes to the new
population, one from each offspring pair: the appended child has the smaller of the two fitness
values of its pair, and on a tie it is the first child. -/
theorem C7_tournament_of_two (X : Externals) (seeds : Nat → Nat) (pop : List Chromosome) (k : Nat)
    (newPopulation : List Chromosome) (i j : Nat) (c1 c2 : Chromosome)
    (hi : pop[i]? = some c1) (hj : pop[j]? = some c2) :
    ∃ o b1 b2, o = createOffspringPairs X (seeds (2 * k)) (seeds (2 * k + 1)) c1 c2 ∧
      o.1 = (X.CalculateFitnessScore (X.ApplyPartiallyMapped (seeds (2 * k)) c1 c2).1,
             X.CalculateFitnessScore (X.ApplyPartiallyMapped (seeds (2 * k)) c1 c2).2) ∧
      o.2 = (X.CalculateFitnessScore (X.ApplyPartiallyMapped (seeds (2 * k + 1)) c1 c2).1,
             X.CalculateFitnessScore (X.ApplyPartiallyMapped (seeds (2 * k + 1)) c1 c2).2) ∧
      crossPair X seeds pop k newPopulation i j = some (newPopulation ++ [b1, b2]) ∧
      (newPopulation ++ [b1, b2]).length = newPopulation.length + 2 ∧
      (b1 = o.1.1 ∨ b1 = o.1.2) ∧ (b2 = o.2.1 ∨ b2 = o.2.2) ∧
      b1.fitnessScore = min o.1.1.fitnessScore o.1.2.fitnessScore ∧
      b2.fitnessScore = min o.2.1.fitnessScore o.2.2.fitnessScore ∧
      (o.1.1.fitnessScore = o.1.2.fitnessScore → b1 = o.1.1) ∧
      (o.2.1.fitnessScore = o.2.2.fitnessScore → b2 = o.2.1) := by
  refine ⟨createOffspringPairs X (seeds (2 * k)) (seeds (2 * k + 1)) c1 c2, _, _, rfl, rfl, rfl,
    crossPair_eq X seeds pop k newPopulation i j c1 c2 hi hj, by simp, ?_, ?_,
    betterOffspring_fitness _ _, betterOffspring_fitness _ _, ?_, ?_⟩
  · unfold betterOffspring
    split_ifs
    · exact Or.inl rfl
    · exact Or.inr rfl
  · unfold betterOffspring
    split_ifs
    · exact Or.inl rfl
    · exact Or.inr rfl
  · intro h
    simp only [betterOffspring, if_pos (le_of_eq h)]
  · intro h
    simp only [betterOffspring, if_pos (le_of_eq h)]

/-- C7 at a concrete input: the parents at indices 0 and 1 of `examplePopulation`. -/
theorem C7_tournament_of_two_witness :
    ∃ o b1 b2, o = createOffspringPairs exampleExternals ((fun k => k) (2 * 0))
        ((fun k => k) (2 * 0 + 1)) ⟨[1, 2, 3], 7⟩ ⟨[1, 3, 2], 5⟩ ∧
      o.1 = (exampleExternals.CalculateFitnessScore (exampleExternals.ApplyPartiallyMapped
               ((fun k => k) (2 * 0)) ⟨[1, 2, 3], 7⟩ ⟨[1, 3, 2], 5⟩).1,
             exampleExternals.CalculateFitnessScore (exampleExternals.ApplyPartiallyMapped
               ((fun k => k) (2 * 0)) ⟨[1, 2, 3], 7⟩ ⟨[1, 3, 2], 5⟩).2) ∧
      o.2 = (exampleExternals.CalculateFitnessScore (exampleExternals.ApplyPartiallyMapped
               ((fun k => k) (2 * 0 + 1)) ⟨[1, 2, 3], 7⟩ ⟨[1, 3, 2], 5⟩).1,
             exampleExternals.CalculateFitnessScore (exampleExternals.ApplyPartiallyMapped
               ((fun k => k) (2 * 0 + 1)) ⟨[1, 2, 3], 7⟩ ⟨[1, 3, 2], 5⟩).2) ∧
      crossPair exampleExternals (fun k => k) examplePopulation 0 [] 0 1 = some ([] ++ [b1, b2]) ∧
      (([] : List Chromosome) ++ [b1, b2]).length = ([] : List Chromosome).length + 2 ∧
      (b1 = o.1.1 ∨ b1 = o.1.2) ∧ (b2 = o.2.1 ∨ b2 = o.2.2) ∧
      b1.fitnessScore = min o.1.1.fitnessScore o.1.2.fitnessScore ∧
      b2.fitnessScore = min o.2.1.fitnessScore o.2.2.fitnessScore ∧
      (o.1.1.fitnessScore = o.1.2.fitnessScore → b1 = o.1.1) ∧
      (o.2.1.fitnessScore = o.2.2.fitnessScore → b2 = o.2.1) :=
  C7_tournament_of_two exampleExternals (fun k => k) examplePopulation 0 [] 0 1
    ⟨[1, 2, 3], 7⟩ ⟨[1, 3, 2], 5⟩ (by decide!) (by decide!)

/-! ## C8: EveryPair -/

/-- C9 fails on the code: on three chromosomes `SequentialPair` forms the pair `(0, 1)` only, the
last pair `(1, 2)` is never formed, and the returned population has 1 + 2 chromosomes where the
claim gives 1 + 2*(3-1); on two chromosomes no pair is formed at all. -/
theorem C9_sequential_pair_misses_last :
    sequentialPairIndices examplePopulation.length = [(0, 1)] ∧
    (1, 2) ∉ sequentialPairIndices examplePopulation.length ∧
    (GenerateSubPopulation exampleExternals (exampleGlobals 1 1 ⟨[], 0⟩) .SequentialPair []
        (fun k => k) examplePopulation).map (fun r => r.1.length) = some 3 ∧
    ⌊(examplePopulation.length : ℚ) * (exampleGlobals 1 1 ⟨[], 0⟩).config.eliteChromosomesPct⌋ +
        2 * ((examplePopulation.length : Int) - 1) = 5 ∧
    sequentialPairIndices 2 = [] := by
  decide!

/-! ## C10: the initial population -/

theorem map_succ_range (c : Nat) : (List.range c).map (· + 1) = List.range' 1 c := by
  rw [List.range'_eq_map_range]
  apply List.map_congr_left
  intro x _
  omega

theorem baseGenes_eq (cfg : TspGaConfig) :
    baseGenes cfg = cfg.startPointId ::
      (List.range' 1 cfg.chromosomeSize).filter (fun gene => gene ≠ cfg.startPointId) := by
  simp only [baseGenes, map_succ_range]

theorem baseGenes_perm (cfg : TspGaConfig) (hs1 : 1 ≤ cfg.startPointId)
    (hs2 : cfg.startPointId ≤ cfg.chromosomeSize) :
    (baseGenes cfg).Perm (List.range' 1 cfg.chromosomeSize) := by
  rw [baseGenes_eq]
  have hmem : cfg.startPointId ∈ List.range' 1 cfg.chromosomeSize := by
    rw [List.mem_range'_1]
    omega
  have hnd : (List.range' 1 cfg.chromosomeSize).Nodup := List.nodup_range' 1 cfg.chromosomeSize
  have hfil : (List.range' 1 cfg.chromosomeSize).filter (fun gene => gene ≠ cfg.startPointId) =
      (List.range' 1 cfg.chromosomeSize).erase cfg.startPointId := by
    rw [hnd.erase_eq_filter]
    apply List.filter_congr
    intro x _
    by_cases hx : x = cfg.startPointId <;> simp [hx]
  rw [hfil]
  exact (List.perm_cons_erase hmem).symm

theorem baseGenes_tail_sorted (cfg : TspGaConfig) : (baseGenes cfg).tail.Sorted (· < ·) := by
  rw [baseGenes_eq, List.tail_cons]
  exact (List.pairwise_lt_range' 1 cfg.chromosomeSize).sublist (List.filter_sublist _)

theorem baseGenes_pinned (cfg : TspGaConfig) (hs1 : 1 ≤ cfg.startPointId)
    (hs2 : cfg.startPointId ≤ cfg.chromosomeSize) : PinnedTour cfg (baseGenes cfg) :=
  ⟨by simp [baseGenes], baseGenes_perm cfg hs1 hs2⟩

theorem ShuffleGenes_pinned (X : Externals) (hsh : ShuffleGenesKeepsStart X) (cfg : TspGaConfig)
    (seed : Nat) (c : Chromosome) (hc : PinnedTour cfg c.genes) :
    PinnedTour cfg (X.ShuffleGenes seed c).genes := by
  obtain ⟨hhead, hperm⟩ := hc
  cases hg : c.genes with
  | nil => simp [hg] at hhead
  | cons x xs =>
    rw [hg] at hhead hperm
    obtain ⟨ys, hys, hp⟩ := hsh seed c x xs hg
    rw [hys]
    exact ⟨hhead, (hp.cons x).trans hperm⟩

theorem shuffleAndAdd_spec (X : Externals) (hsh : ShuffleGenesKeepsStart X) (cfg : TspGaConfig)
    (seeds : Nat → Nat) (m idx : Nat) (c : Chromosome) (acc : List Chromosome)
    (hc : PinnedTour cfg c.genes) :
    ∃ added, shuffleAndAdd X seeds m idx c acc = acc ++ added ∧ added.length = m ∧
      ∀ ch ∈ added, PinnedTour cfg ch.genes := by
  induction m generalizing idx c acc with
  | zero => exact ⟨[], by simp [shuffleAndAdd], rfl, by simp⟩
  | succ m ih =>
    have hc1 := ShuffleGenes_pinned X hsh cfg (seeds idx) c hc
    obtain ⟨added, hadd, hlen, hall⟩ :=
      ih (idx + 1) (X.ShuffleGenes (seeds idx) c) (acc ++ [X.ShuffleGenes (seeds idx) c]) hc1
    refine ⟨X.ShuffleGenes (seeds idx) c :: added, ?_, by simp [hlen], ?_⟩
    · simp only [shuffleAndAdd, hadd, List.append_assoc, List.singleton_append]
    · intro ch hch
      rcases List.mem_cons.mp hch with rfl | hch
      · exact hc1
      · exact hall ch hch

/-- C10. For `1 ≤ startPointId ≤ chromosomeSize = c` (so `c ≥ 1`), `GenerateRandomInitialPopulation`
discards the previous content and builds a base chromosome of length `c` holding each identifier
`1..c` once, `startPointId` first and the others ascending; if `ShuffleGenes` keeps gene 0 and
reorders the rest, the population has exactly `initialPopulationSize` chromosomes, each a
reordering of `1..c` with `startPointId` at position 0 and with its fitness computed. -/
theorem C10_initial_population (X : Externals) (g : Globals) (seeds : Nat → Nat)
    (previous : List Chromosome)
    (hs1 : 1 ≤ g.config.startPointId) (hs2 : g.config.startPointId ≤ g.config.chromosomeSize)
    (hsh : ShuffleGenesKeepsStart X) :
    (baseGenes g.config).length = g.config.chromosomeSize ∧
    (baseGenes g.config).Perm (List.range' 1 g.config.chromosomeSize) ∧
    (baseGenes g.config).Nodup ∧
    (baseGenes g.config).head? = some g.config.startPointId ∧
    (baseGenes g.config).tail.Sorted (· < ·) ∧
    GenerateRandomInitialPopulation X g seeds previous =
      GenerateRandomInitialPopulation X g seeds [] ∧
    (GenerateRandomInitialPopulation X g seeds previous).length =
      g.config.initialPopulationSize ∧
    ∀ ch ∈ GenerateRandomInitialPopulation X g seeds previous,
      ch.genes.Perm (List.range' 1 g.config.chromosomeSize) ∧
      ch.genes.head? = some g.config.startPointId ∧
      ch.fitnessScore = X.fitness ch.genes := by
  have hbase := baseGenes_pinned g.config hs1 hs2
  have hperm := baseGenes_perm g.config hs1 hs2
  obtain ⟨added, hadd, hlen, hall⟩ := shuffleAndAdd_spec X hsh g.config seeds
    g.config.initialPopulationSize 0 ⟨baseGenes g.config, 0⟩ [] hbase
  have hgen : GenerateRandomInitialPopulation X g seeds previous =
      added.map X.CalculateFitnessScore := by
    simp only [GenerateRandomInitialPopulation, ClearPopulation, hadd, List.nil_append]
  refine ⟨?_, hperm, ?_, hbase.1, baseGenes_tail_sorted g.config, ?_, ?_, ?_⟩
  · rw [hperm.length_eq, List.length_range']
  · exact hperm.nodup_iff.mpr (List.nodup_range' 1 g.config.chromosomeSize)
  · rfl
  · rw [hgen, List.length_map, hlen]
  · intro ch hch
    rw [hgen, List.mem_map] at hch
    obtain ⟨c0, hc0, rfl⟩ := hch
    obtain ⟨hh, hp⟩ := hall c0 hc0
    exact ⟨hp, hh, rfl⟩

theorem exampleExternals_keepsStart : ShuffleGenesKeepsStart exampleExternals := by
  intro seed c x xs hg
  refine ⟨shuffleList [seed, seed + 1, seed + 2] xs, ?_, shuffleList_perm _ xs⟩
  simp [exampleExternals, hg]

/-- C10 at a concrete input: three cities, start point 1, three chromosomes. -/
theorem C10_initial_population_witness :
    (baseGenes (exampleGlobals 1 1 ⟨[], 0⟩).config).length =
      (exampleGlobals 1 1 ⟨[], 0⟩).config.chromosomeSize ∧
    (baseGenes (exampleGlobals 1 1 ⟨[], 0⟩).config).Perm
      (List.range' 1 (exampleGlobals 1 1 ⟨[], 0⟩).config.chromosomeSize) ∧
    (baseGenes (exampleGlobals 1 1 ⟨[], 0⟩).config).Nodup ∧
    (baseGenes (exampleGlobals 1 1 ⟨[], 0⟩).config).head? =
      some (exampleGlobals 1 1 ⟨[], 0⟩).config.startPointId ∧
    (baseGenes (exampleGlobals 1 1 ⟨[], 0⟩).config).tail.Sorted (· < ·) ∧
    GenerateRandomInitialPopulation exampleExternals (exampleGlobals 1 1 ⟨[], 0⟩) (fun k => k)
        examplePopulation =
      GenerateRandomInitialPopulation exampleExternals (exampleGlobals 1 1 ⟨[], 0⟩) (fun k => k)
        [] ∧
    (GenerateRandomInitialPopulation exampleExternals (exampleGlobals 1 1 ⟨[], 0⟩) (fun k => k)
        examplePopulation).length = (exampleGlobals 1 1 ⟨[], 0⟩).config.initialPopulationSize ∧
    ∀ ch ∈ GenerateRandomInitialPopulation exampleExternals (exampleGlobals 1 1 ⟨[], 0⟩)
        (fun k => k) examplePopulation,
      ch.genes.Perm (List.range' 1 (exampleGlobals 1 1 ⟨[], 0⟩).config.chromosomeSize) ∧
      ch.genes.head? = some (exampleGlobals 1 1 ⟨[], 0⟩).config.startPointId ∧
      ch.fitnessScore = exampleExternals.fitness ch.genes :=
  C10_initial_population exampleExternals (exampleGlobals 1 1 ⟨[], 0⟩) (fun k => k)
    examplePopulation (by decide) (by decide) exampleExternals_keepsStart

/-! ## C11: no configuration is rejected -/

theorem applyInversionFrom_getElem? (X : Externals) (seeds : Nat → Nat) (idx : Nat)
    (pop : List Chromosome) (i : Nat) :
    (applyInversionFrom X seeds idx pop)[i]? =
      pop[i]?.map (X.ApplyInversion (seeds (idx + i))) := by
  induction pop generalizing idx i with
  | nil => simp [applyInversionFrom]
  | cons c cs ih =>
    cases i with
    | zero => simp [applyInversionFrom]
    | succ i =>
      simp only [applyInversionFrom, List.getElem?_cons_succ, ih]
      have hidx : idx + 1 + i = idx + (i + 1) := by omega
      rw [hidx]

theorem applyInversionFrom_length (X : Externals) (seeds : Nat → Nat) (idx : Nat)
    (pop : List Chromosome) : (applyInversionFrom X seeds idx pop).length = pop.length := by
  induction pop generalizing idx with
  | nil => rfl
  | cons c cs ih => simp [applyInversionFrom, ih]

theorem mem_applyInversionFrom (X : Externals) (seeds : Nat → Nat) (idx : Nat)
    (pop : List Chromosome) (d : Chromosome) (hd : d ∈ applyInversionFrom X seeds idx pop) :
    ∃ seed c, c ∈ pop ∧ d = X.ApplyInversion seed c := by
  induction pop generalizing idx with
  | nil => simp [applyInversionFrom] at hd
  | cons c cs ih =>
    simp only [applyInversionFrom, List.mem_cons] at hd
    rcases hd with rfl | hd
    · exact ⟨seeds idx, c, List.mem_cons_self _ _, rfl⟩
    · obtain ⟨seed, c1, hc1, rfl⟩ := ih (idx + 1) hd
      exact ⟨seed, c1, List.mem_cons_of_mem _ hc1, rfl⟩

/-- C16. `Mutate` keeps the number and order of the chromosomes and replaces the chromosome at
every index `i` by the inversion operator applied once to it (with the seed drawn for `i`); it
leaves the best-ever chromosome and `TspGa::config` unchanged and changes `tspConfig` in the one
field `mutationRate`, which becomes `mutationRate * (1 + mutationIncreaseRate)`; in particular
`bestChromosomesPct` keeps its value. -/
theorem C16_mutate_frame (X : Externals) (g : Globals) (seeds : Nat → Nat)
    (pop : List Chromosome) :
    (Mutate X g seeds pop).2.length = pop.length ∧
    (∀ i, (Mutate X g seeds pop).2[i]? = pop[i]?.map (X.ApplyInversion (seeds i))) ∧
    (Mutate X g seeds pop).1.bestChromosome = g.bestChromosome ∧
    (Mutate X g seeds pop).1.config = g.config ∧
    (Mutate X g seeds pop).1.tspConfig.mutationRate =
      g.tspConfig.mutationRate * (1 + g.tspConfig.mutationIncreaseRate) ∧
    (Mutate X g seeds pop).1.tspConfig =
      { g.tspConfig with mutationRate :=
          g.tspConfig.mutationRate * (1 + g.tspConfig.mutationIncreaseRate) } ∧
    (Mutate X g seeds pop).1.tspConfig.bestChromosomesPct = g.tspConfig.bestChromosomesPct := by
  refine ⟨applyInversionFrom_length X seeds 0 pop, ?_, rfl, rfl, rfl, rfl, rfl⟩
  intro i
  simp only [Mutate, applyInversionFrom_getElem?, Nat.zero_add]

/-! ## C15: the permutation invariant -/

theorem IsValid_CalculateFitnessScore (X : Externals) (cfg : TspGaConfig) (c : Chromosome) :
    IsValid cfg (X.CalculateFitnessScore c) ↔ IsValid cfg c :=
  Iff.rfl

theorem betterOffspring_cases (o1 o2 : Chromosome) :
    betterOffspring o1 o2 = o1 ∨ betterOffspring o1 o2 = o2 := by
  unfold betterOffspring
  split_ifs
  · exact Or.inl rfl
  · exact Or.inr rfl

theorem crossPairs_valid (X : Externals) (cfg : TspGaConfig) (hpmx : PMXPreservesValid X cfg)
    (seeds : Nat → Nat) (pop : List Chromosome) (hpop : ∀ c ∈ pop, IsValid cfg c)
    (ps : List (Nat × Nat)) (k : Nat) (acc np : List Chromosome)
    (hacc : ∀ c ∈ acc, IsValid cfg c)
    (h : crossPairs X seeds pop ps k acc = some np) : ∀ c ∈ np, IsValid cfg c := by
  induction ps generalizing k acc with
  | nil =>
    simp only [crossPairs, Option.some.injEq] at h
    subst h
    exact hacc
  | cons q ps ih =>
    obtain ⟨i, j⟩ := q
    simp only [crossPairs] at h
    cases hstep : crossPair X seeds pop k acc i j with
    | none => simp [hstep] at h
    | some acc1 =>
      rw [hstep] at h
      refine ih (k + 1) acc1 ?_ h
      cases hi : pop[i]? with
      | none => simp [crossPair, hi] at hstep
      | some c1 =>
        cases hj : pop[j]? with
        | none => simp [crossPair, hi, hj] at hstep
        | some c2 =>
          rw [crossPair_eq X seeds pop k acc i j c1 c2 hi hj] at hstep
          obtain rfl := Option.some.inj hstep
          have hv1 := hpop c1 (List.getElem?_mem hi)
          have hv2 := hpop c2 (List.getElem?_mem hj)
          have ha := hpmx (seeds (2 * k)) c1 c2 hv1 hv2
          have hb := hpmx (seeds (2 * k + 1)) c1 c2 hv1 hv2
          intro c hc
          simp only [List.mem_append, List.mem_cons, List.mem_singleton, List.not_mem_nil,
            or_false] at hc
          rcases hc with hc | rfl | rfl
          · exact hacc c hc
          · rcases betterOffspring_cases
              (createOffspringPairs X (seeds (2 * k)) (seeds (2 * k + 1)) c1 c2).1.1
              (createOffspringPairs X (seeds (2 * k)) (seeds (2 * k + 1)) c1 c2).1.2 with h1 | h1
            · rw [h1]
              exact ha.1
            · rw [h1]
              exact ha.2
          · rcases betterOffspring_cases
              (createOffspringPairs X (seeds (2 * k)) (seeds (2 * k + 1)) c1 c2).2.1
              (createOffspringPairs X (seeds (2 * k)) (seeds (2 * k + 1)) c1 c2).2.2 with h1 | h1
            · rw [h1]
              exact hb.1
            · rw [h1]
              exact hb.2

theorem GenerateSubPopulation_some (X : Externals) (g : Globals) (strategy : CrossoverStrategy)
    (draws : List Nat) (seeds : Nat → Nat) (pop np receiver : List Chromosome)
    (h : GenerateSubPopulation X g strategy draws seeds pop = some (np, receiver)) :
    receiver = parentsOf strategy draws pop ∧
      crossPairs X seeds (parentsOf strategy draws pop) (pairIndices strategy pop.length) 0
        (pop.take (lastEliteIndex g.config pop.length).toNat) = some np := by
  by_cases he : inRange (lastEliteIndex g.config pop.length) pop.length
  · by_cases hn : minimumSize strategy ≤ pop.length
    · rw [GenerateSubPopulation_eq X g strategy draws seeds pop he hn] at h
      cases hc : crossPairs X seeds (parentsOf strategy draws pop)
          (pairIndices strategy pop.length) 0
          (pop.take (lastEliteIndex g.config pop.length).toNat) with
      | none => simp [hc] at h
      | some np1 =>
        rw [hc] at h
        simp only [Option.map_some', Option.some.injEq, Prod.mk.injEq] at h
        exact ⟨h.2.symm, by rw [h.1]⟩
    · cases strategy <;> simp only [minimumSize] at hn <;>
        simp [GenerateSubPopulation, he, hn] at h
  · simp [GenerateSubPopulation, he] at h

theorem lineExternals_pmx (cfg : TspGaConfig) : PMXPreservesValid lineExternals cfg := by
  intro seed c1 c2 h1 h2
  simp only [lineExternals]
  split_ifs
  · exact ⟨h1, h2⟩
  · exact ⟨h2, h1⟩

theorem lineExternals_inversion (cfg : TspGaConfig) : InversionPreservesValid lineExternals cfg := by
  intro seed c hc
  have hsplit : c.genes = c.genes.take 1 ++ ((c.genes.drop 1).take 2 ++ c.genes.drop 3) := by
    have h3 : c.genes.drop 3 = (c.genes.drop 1).drop 2 := by
      rw [List.drop_drop]
    rw [h3, List.take_append_drop, List.take_append_drop]
  have hperm : (c.genes.take 1 ++ ((c.genes.drop 1).take 2).reverse ++ c.genes.drop 3).Perm
      c.genes := by
    conv_rhs => rw [hsplit]
    rw [List.append_assoc]
    exact ((List.reverse_perm _).append_right _).append_left _
  exact hperm.trans hc

/-- C15. Assume PMX and the inversion operator map valid chromosomes to valid chromosomes, every
chromosome of the population is a valid permutation, and the stored best-ever chromosome is empty
or valid. Then every chromosome is valid after a completed `SelectBestChromosomes` (and the
best-ever chromosome is then valid), after `Mutate`, after `Shuffle`, and in the population
returned by `GenerateSubPopulation` for each strategy (as in the receiver it leaves behind);
`Mutate` leaves the best-ever chromosome as it was. -/
theorem C15_validity_preserved (X : Externals) (g : Globals) (pop : List Chromosome)
    (hpmx : PMXPreservesValid X g.config) (hinv : InversionPreservesValid X g.config)
    (hpop : ∀ c ∈ pop, IsValid g.config c)
    (hbest : g.bestChromosome.GetSize = 0 ∨ IsValid g.config g.bestChromosome) :
    (∀ draws g1 pop1, SelectBestChromosomes g draws pop = some (g1, pop1) →
      (∀ c ∈ pop1, IsValid g.config c) ∧ IsValid g.config g1.bestChromosome ∧
        g1.config = g.config) ∧
    (∀ seeds, (∀ c ∈ (Mutate X g seeds pop).2, IsValid g.config c) ∧
      (Mutate X g seeds pop).1.bestChromosome = g.bestChromosome) ∧
    (∀ draws, ∀ c ∈ Shuffle draws pop, IsValid g.config c) ∧
    (∀ strategy draws seeds np receiver,
      GenerateSubPopulation X g strategy draws seeds pop = some (np, receiver) →
        (∀ c ∈ np, IsValid g.config c) ∧ (∀ c ∈ receiver, IsValid g.config c)) := by
  refine ⟨?_, ?_, ?_, ?_⟩
  · intro draws g1 pop1 h
    obtain ⟨c0, rest, hsel, rfl, rfl⟩ := (SelectBestChromosomes_some_iff g draws pop g1 _).mp h
    obtain ⟨_, _, hkept⟩ := (selectAndErase_some_iff g.tspConfig draws pop _).mp hsel
    have hsub : ∀ c ∈ c0 :: rest, c ∈ pop := by
      intro c hc
      rw [hkept] at hc
      exact (shuffledPopulation_perm g.tspConfig draws pop).mem_iff.mp (List.mem_of_mem_take hc)
    refine ⟨fun c hc => hpop c (hsub c hc), ?_, rfl⟩
    have hc0 : IsValid g.config c0 := hpop c0 (hsub c0 (List.mem_cons_self _ _))
    simp only [updateBest]
    split_ifs with hcond
    · exact hc0
    · rcases hbest with hb | hb
      · exact absurd (Or.inl hb) hcond
      · exact hb
  · intro seeds
    refine ⟨?_, rfl⟩
    intro d hd
    obtain ⟨seed, c, hc, rfl⟩ := mem_applyInversionFrom X seeds 0 pop d hd
    exact hinv seed c (hpop c hc)
  · intro draws c hc
    exact hpop c ((shuffleList_perm draws pop).mem_iff.mp hc)
  · intro strategy draws seeds np receiver h
    obtain ⟨hrecv, hcross⟩ := GenerateSubPopulation_some X g strategy draws seeds pop np receiver h
    have hparents : ∀ c ∈ parentsOf strategy draws pop, IsValid g.config c := by
      intro c hc
      cases strategy
      · exact hpop c hc
      · exact hpop c hc
      · exact hpop c ((shuffleList_perm draws pop).mem_iff.mp hc)
    refine ⟨?_, ?_⟩
    · exact crossPairs_valid X g.config hpmx seeds _ hparents _ 0 _ np
        (fun c hc => hpop c (List.mem_of_mem_take hc)) hcross
    · rw [hrecv]
      exact hparents

/-- C15 at a concrete input: five valid tours over four cities and an empty best-ever chromosome;
selection with an identity draw completes. -/
theorem C15_validity_preserved_witness :
    (SelectBestChromosomes (driverGlobals (driverConfig 4 1 3)) [] fourCityPopulation).isSome ∧
    ((∀ draws g1 pop1, SelectBestChromosomes (driverGlobals (driverConfig 4 1 3)) draws
        fourCityPopulation = some (g1, pop1) →
      (∀ c ∈ pop1, IsValid (driverGlobals (driverConfig 4 1 3)).config c) ∧
        IsValid (driverGlobals (driverConfig 4 1 3)).config g1.bestChromosome ∧
        g1.config = (driverGlobals (driverConfig 4 1 3)).config) ∧
    (∀ seeds, (∀ c ∈ (Mutate lineExternals (driverGlobals (driverConfig 4 1 3)) seeds
        fourCityPopulation).2, IsValid (driverGlobals (driverConfig 4 1 3)).config c) ∧
      (Mutate lineExternals (driverGlobals (driverConfig 4 1 3)) seeds
        fourCityPopulation).1.bestChromosome =
        (driverGlobals (driverConfig 4 1 3)).bestChromosome) ∧
    (∀ draws, ∀ c ∈ Shuffle draws fourCityPopulation,
      IsValid (driverGlobals (driverConfig 4 1 3)).config c) ∧
    (∀ strategy draws seeds np receiver,
      GenerateSubPopulation lineExternals (driverGlobals (driverConfig 4 1 3)) strategy draws
          seeds fourCityPopulation = some (np, receiver) →
        (∀ c ∈ np, IsValid (driverGlobals (driverConfig 4 1 3)).config c) ∧
        (∀ c ∈ receiver, IsValid (driverGlobals (driverConfig 4 1 3)).config c))) :=
  ⟨by decide!, C15_validity_preserved lineExternals (driverGlobals (driverConfig 4 1 3))
    fourCityPopulation (lineExternals_pmx _) (lineExternals_inversion _) (by decide)
    (Or.inl rfl)⟩

/-! ## C19: chromosome 0 after selection -/

theorem selectAndErase_head_min (cfg : TspGaConfig) (draws : List Nat) (pop : List Chromosome)
    (hb0 : 0 ≤ cfg.bestChromosomesPct) (hb1 : cfg.bestChromosomesPct ≤ 1)
    (hr0 : 0 ≤ cfg.restChromosomesPct) (hr1 : cfg.restChromosomesPct ≤ 1)
    (h1 : 1 ≤ ⌊(pop.length : ℚ) * cfg.bestChromosomesPct⌋) :
    ∃ c0 rest, selectAndErase cfg draws pop = some (c0 :: rest) ∧ c0 ∈ pop ∧
      ∀ c ∈ pop, c0.fitnessScore ≤ c.fitnessScore := by
  have hk := firstIndexOfRest_inRange cfg pop.length hb0 hb1
  have he := firstIndexToRemove_inRange cfg pop.length hb0 hb1 hr0 hr1
  have hb := firstIndexToRemove_bounds cfg pop.length hb0 hb1 hr0 hr1
  have hsel := selectAndErase_eq cfg draws pop hk he
  have hfl := firstIndexOfRest_eq_floor cfg pop.length hb0
  have htake := take_best_of_shuffled cfg draws pop hk hb.1
  have hkpos : 0 < (firstIndexOfRest cfg pop.length).toNat := by
    rw [hfl]
    omega
  have hslen := sortByFitness_length pop
  have hsorted := sortByFitness_sorted pop
  have hperm := sortByFitness_perm pop
  cases hs : sortByFitness pop with
  | nil =>
    rw [hs] at hslen
    obtain ⟨_, hk1⟩ := hk
    simp only [List.length_nil] at hslen
    omega
  | cons c0 tl =>
    rw [hs] at htake hsorted hperm
    rw [List.take_cons hkpos] at htake
    cases hkept : (shuffledPopulation cfg draws pop).take
        (firstIndexToRemove cfg pop.length).toNat with
    | nil =>
      rw [hkept] at htake
      simp at htake
    | cons d rest =>
      rw [hkept] at htake hsel
      rw [List.take_cons hkpos] at htake
      obtain ⟨rfl, _⟩ := List.cons.inj htake
      refine ⟨d, rest, hsel, hperm.mem_iff.mp (List.mem_cons_self _ _), ?_⟩
      intro c hc
      rcases List.mem_cons.mp (hperm.mem_iff.mpr hc) with rfl | hc1
      · exact le_refl _
      · exact List.rel_of_sorted_cons hsorted c hc1

/-- C19. For fractions in [0,1] and `floor(n * bestChromosomesPct) ≥ 1`, whatever the shuffle
draws, `SelectBestChromosomes` completes, chromosome 0 of the selected population is a
chromosome of the input whose fitness is the minimum over the input, and the stored best-ever
fitness is then at most the fitness of every chromosome of the input. -/
theorem C19_chromosome_zero_is_minimum (g : Globals) (draws : List Nat) (pop : List Chromosome)
    (hb0 : 0 ≤ g.tspConfig.bestChromosomesPct) (hb1 : g.tspConfig.bestChromosomesPct ≤ 1)
    (hr0 : 0 ≤ g.tspConfig.restChromosomesPct) (hr1 : g.tspConfig.restChromosomesPct ≤ 1)
    (h1 : 1 ≤ ⌊(pop.length : ℚ) * g.tspConfig.bestChromosomesPct⌋) :
    ∃ g1 c0 rest, SelectBestChromosomes g draws pop = some (g1, c0 :: rest) ∧ c0 ∈ pop ∧
      (∀ c ∈ pop, c0.fitnessScore ≤ c.fitnessScore) ∧
      (∀ c ∈ pop, g1.bestChromosome.fitnessScore ≤ c.fitnessScore) := by
  obtain ⟨c0, rest, hsel, hmem, hmin⟩ :=
    selectAndErase_head_min g.tspConfig draws pop hb0 hb1 hr0 hr1 h1
  refine ⟨_, c0, rest,
    (SelectBestChromosomes_some_iff g draws pop _ _).mpr ⟨c0, rest, hsel, rfl, rfl⟩,
    hmem, hmin, ?_⟩
  intro c hc
  simp only [updateBest]
  split_ifs with hcond
  · exact hmin c hc
  · have hle : g.bestChromosome.fitnessScore ≤ c0.fitnessScore := by
      by_contra hlt
      exact hcond (Or.inr (not_le.mp hlt))
    exact le_trans hle (hmin c hc)

/-- C19 at a concrete input: three chromosomes, `bestPct = 1/2`, a stored best-ever of
fitness 6. -/
theorem C19_chromosome_zero_is_minimum_witness :
    ∃ g1 c0 rest, SelectBestChromosomes (exampleGlobals (1 / 2) 1 ⟨[3, 2, 1], 6⟩) [1, 0]
        examplePopulation = some (g1, c0 :: rest) ∧ c0 ∈ examplePopulation ∧
      (∀ c ∈ examplePopulation, c0.fitnessScore ≤ c.fitnessScore) ∧
      (∀ c ∈ examplePopulation, g1.bestChromosome.fitnessScore ≤ c.fitnessScore) :=
  C19_chromosome_zero_is_minimum (exampleGlobals (1 / 2) 1 ⟨[3, 2, 1], 6⟩) [1, 0]
    examplePopulation (by decide!) (by decide!) (by decide!) (by decide!) (by decide!)

/-! ## CreateGenerations: one pass through the loop body -/

theorem SelectBestChromosomes_config (g : Globals) (draws : List Nat) (pop : List Chromosome)
    (g1 : Globals) (pop1 : List Chromosome)
    (h : SelectBestChromosomes g draws pop = some (g1, pop1)) : g1.config = g.config := by
  obtain ⟨c0, rest, _, _, rfl⟩ := (SelectBestChromosomes_some_iff g draws pop g1 pop1).mp h
  rfl

theorem CalculateFitnessScores_length (X : Externals) (pop : List Chromosome) :
    (CalculateFitnessScores X pop).length = pop.length := by
  simp [CalculateFitnessScores]

theorem mutated_length (X : Externals) (g : Globals) (seeds : Nat → Nat)
    (pop : List Chromosome) :
    (CalculateFitnessScores X (Mutate X g seeds pop).2).length = pop.length := by
  rw [CalculateFitnessScores_length]
  exact applyInversionFrom_length X seeds 0 pop

theorem selectAndMutate_stop (X : Externals) (r : GenRandom) (s : DriverState) (g1 : Globals)
    (c0 : Chromosome) (rest : List Chromosome)
    (hsel : SelectBestChromosomes s.globals r.selectDraws s.parentPopulation =
      some (g1, c0 :: rest))
    (h4 : (c0 :: rest).length < 4) :
    selectAndMutate X r s =
      some (.stop { s with globals := g1, parentPopulation := c0 :: rest }
        ⟨c0.fitnessScore, (c0 :: rest).length, false⟩) := by
  simp only [selectAndMutate, hsel, h4, if_true]

theorem selectAndMutate_not_fired (X : Externals) (r : GenRandom) (s : DriverState)
    (g1 : Globals) (c0 : Chromosome) (rest : List Chromosome)
    (hsel : SelectBestChromosomes s.globals r.selectDraws s.parentPopulation =
      some (g1, c0 :: rest))
    (h4 : ¬ (c0 :: rest).length < 4)
    (hdue : ¬ g1.config.mutationPatience ≤ stagnationCounter s c0.fitnessScore) :
    selectAndMutate X r s =
      some (.ready (stateWithoutMutation s g1 c0 rest)
        ⟨c0.fitnessScore, (c0 :: rest).length, false⟩) := by
  simp only [selectAndMutate, hsel, h4, hdue, if_false]

theorem selectAndMutate_fired (X : Externals) (r : GenRandom) (s : DriverState)
    (g1 : Globals) (c0 : Chromosome) (rest : List Chromosome)
    (hsel : SelectBestChromosomes s.globals r.selectDraws s.parentPopulation =
      some (g1, c0 :: rest))
    (h4 : ¬ (c0 :: rest).length < 4)
    (hdue : g1.config.mutationPatience ≤ stagnationCounter s c0.fitnessScore) :
    ∃ d0 ds, CalculateFitnessScores X (Mutate X g1 r.mutateSeeds (c0 :: rest)).2 = d0 :: ds ∧
      selectAndMutate X r s =
        some (.ready (stateWithMutation s (Mutate X g1 r.mutateSeeds (c0 :: rest)).1 c0 d0 ds)
          ⟨c0.fitnessScore, (c0 :: rest).length, true⟩) := by
  have hlen := mutated_length X g1 r.mutateSeeds (c0 :: rest)
  cases hm : CalculateFitnessScores X (Mutate X g1 r.mutateSeeds (c0 :: rest)).2 with
  | nil =>
    rw [hm] at hlen
    simp at hlen
  | cons d0 ds =>
    refine ⟨d0, ds, rfl, ?_⟩
    simp only [selectAndMutate, hsel, h4, hdue, if_false, if_true, hm]

/-- Every way `selectAndMutate` reaches line 76. -/
theorem selectAndMutate_ready (X : Externals) (r : GenRandom) (s s1 : DriverState)
    (entry : LogEntry) (h : selectAndMutate X r s = some (.ready s1 entry)) :
    ∃ g1 c0 rest,
      SelectBestChromosomes s.globals r.selectDraws s.parentPopulation = some (g1, c0 :: rest) ∧
      4 ≤ (c0 :: rest).length ∧
      entry.bestFitness = c0.fitnessScore ∧ entry.populationSize = (c0 :: rest).length ∧
      ((¬ g1.config.mutationPatience ≤ stagnationCounter s c0.fitnessScore ∧
          entry.mutationFired = false ∧ s1 = stateWithoutMutation s g1 c0 rest) ∨
       (g1.config.mutationPatience ≤ stagnationCounter s c0.fitnessScore ∧
          entry.mutationFired = true ∧
          ∃ d0 ds, CalculateFitnessScores X (Mutate X g1 r.mutateSeeds (c0 :: rest)).2 =
              d0 :: ds ∧
            s1 = stateWithMutation s (Mutate X g1 r.mutateSeeds (c0 :: rest)).1 c0 d0 ds)) := by
  cases hsel : SelectBestChromosomes s.globals r.selectDraws s.parentPopulation with
  | none => simp [selectAndMutate, hsel] at h
  | some res =>
    obtain ⟨g1, pop1⟩ := res
    cases pop1 with
    | nil => simp [selectAndMutate, hsel] at h
    | cons c0 rest =>
      by_cases h4 : (c0 :: rest).length < 4
      · rw [selectAndMutate_stop X r s g1 c0 rest hsel h4] at h
        simp at h
      · by_cases hdue : g1.config.mutationPatience ≤ stagnationCounter s c0.fitnessScore
        · obtain ⟨d0, ds, hm, heq⟩ := selectAndMutate_fired X r s g1 c0 rest hsel h4 hdue
          rw [heq] at h
          simp only [Option.some.injEq, Phase.ready.injEq] at h
          obtain ⟨rfl, rfl⟩ := h
          exact ⟨g1, c0, rest, rfl, by omega, rfl, rfl, Or.inr ⟨hdue, rfl, d0, ds, hm, rfl⟩⟩
        · rw [selectAndMutate_not_fired X r s g1 c0 rest hsel h4 hdue] at h
          simp only [Option.some.injEq, Phase.ready.injEq] at h
          obtain ⟨rfl, rfl⟩ := h
          exact ⟨g1, c0, rest, rfl, by omega, rfl, rfl, Or.inl ⟨hdue, rfl, rfl⟩⟩

theorem selectAndMutate_ready_size (X : Externals) (r : GenRandom) (s s1 : DriverState)
    (entry : LogEntry) (h : selectAndMutate X r s = some (.ready s1 entry)) :
    4 ≤ s1.parentPopulation.length ∧ s1.globals.config = s.globals.config ∧
      s1.createdGenerationCount = s.createdGenerationCount := by
  obtain ⟨g1, c0, rest, hsel, h4, _, _, hcase⟩ := selectAndMutate_ready X r s s1 entry h
  have hcfg := SelectBestChromosomes_config _ _ _ _ _ hsel
  rcases hcase with ⟨_, _, rfl⟩ | ⟨_, _, d0, ds, hm, rfl⟩
  · exact ⟨h4, hcfg, rfl⟩
  · refine ⟨?_, hcfg, rfl⟩
    have hlen := mutated_length X g1 r.mutateSeeds (c0 :: rest)
    rw [hm] at hlen
    simp only [stateWithMutation]
    omega

/-! ## C18: the population handed to GenerateSubPopulation -/

theorem generationBody_of_ready (X : Externals) (maxGenerations : Nat) (r : GenRandom)
    (s s1 : DriverState) (entry : LogEntry) (np receiver : List Chromosome)
    (h : selectAndMutate X r s = some (.ready s1 entry))
    (hgen : GenerateSubPopulation X s1.globals .ShuffledSequentialPair r.shuffleDraws r.pmxSeeds
      s1.parentPopulation = some (np, receiver)) :
    generationBody X maxGenerations r s =
      if (stateAfterCrossover X s1 np).createdGenerationCount = maxGenerations
        then some (.returned (stateAfterCrossover X s1 np) entry)
        else some (.continued (stateAfterCrossover X s1 np) entry) := by
  unfold generationBody
  rw [h]
  dsimp only
  rw [hgen]

theorem pct_nonneg_of_floor_pos (n : Nat) (p : ℚ) (h1 : 1 ≤ ⌊(n : ℚ) * p⌋) : 0 ≤ p := by
  by_contra hneg
  push_neg at hneg
  have hn : (0 : ℚ) ≤ n := Nat.cast_nonneg n
  have h2 : (n : ℚ) * p ≤ 0 := mul_nonpos_of_nonneg_of_nonpos hn (le_of_lt hneg)
  have h3 : ⌊(n : ℚ) * p⌋ ≤ 0 := by
    have := Int.floor_le_floor h2
    simpa using this
  omega

theorem selectAndErase_head_min_of_some (cfg : TspGaConfig) (draws : List Nat)
    (pop : List Chromosome) (c0 : Chromosome) (rest : List Chromosome)
    (h : selectAndErase cfg draws pop = some (c0 :: rest))
    (h1 : 1 ≤ ⌊(pop.length : ℚ) * cfg.bestChromosomesPct⌋) :
    c0 ∈ pop ∧ ∀ c ∈ pop, c0.fitnessScore ≤ c.fitnessScore := by
  obtain ⟨hk, he, hkept⟩ := (selectAndErase_some_iff cfg draws pop _).mp h
  have hb0 := pct_nonneg_of_floor_pos pop.length cfg.bestChromosomesPct h1
  have hfl := firstIndexOfRest_eq_floor cfg pop.length hb0
  have hkpos : 0 < (firstIndexOfRest cfg pop.length).toNat := by
    rw [hfl]
    omega
  have hslen := sortByFitness_length pop
  have hsorted := sortByFitness_sorted pop
  have hperm := sortByFitness_perm pop
  unfold shuffledPopulation at hkept
  cases hs : sortByFitness pop with
  | nil =>
    rw [hs] at hslen
    obtain ⟨_, hk1⟩ := hk
    simp only [List.length_nil] at hslen
    omega
  | cons s0 tl =>
    rw [hs] at hkept hsorted hperm
    rw [List.take_cons hkpos, List.cons_append] at hkept
    cases he0 : (firstIndexToRemove cfg pop.length).toNat with
    | zero =>
      rw [he0] at hkept
      simp at hkept
    | succ m =>
      rw [he0, List.take_succ_cons] at hkept
      obtain ⟨rfl, _⟩ := List.cons.inj hkept
      refine ⟨hperm.mem_iff.mp (List.mem_cons_self _ _), ?_⟩
      intro c hc
      rcases List.mem_cons.mp (hperm.mem_iff.mpr hc) with rfl | hc1
      · exact le_refl _
      · exact List.rel_of_sorted_cons hsorted c hc1

/-- C20. In a pass through the loop body in which `Mutate` is not triggered, if the cached
fitness of every chromosome is the fitness of its genes, `floor(n * bestChromosomesPct) ≥ 1` for
the size `n` before selection, and `floor(s * eliteChromosomesPct) ≥ 1` for the size `s` after
selection with an elite fraction of at most 1, then `s ≥ 4`, the pass completes the
recombination, and every chromosome of the population before the pass has a chromosome of the
new population (after the final recomputation) that is at least as fit: the minimum fitness
does not increase. -/
theorem C20_elitism_monotone (X : Externals) (maxGenerations : Nat) (r : GenRandom)
    (s s1 : DriverState) (entry : LogEntry)
    (hfit : ∀ c ∈ s.parentPopulation, c.fitnessScore = X.fitness c.genes)
    (hbest : 1 ≤ ⌊(s.parentPopulation.length : ℚ) * s.globals.tspConfig.bestChromosomesPct⌋)
    (hready : selectAndMutate X r s = some (.ready s1 entry))
    (hnot : entry.mutationFired = false)
    (hp1 : s.globals.config.eliteChromosomesPct ≤ 1)
    (helite : 1 ≤ ⌊(s1.parentPopulation.length : ℚ) * s.globals.config.eliteChromosomesPct⌋) :
    ∃ res, generationBody X maxGenerations r s = some res ∧
      (∀ s2 e2, res ≠ .broke s2 e2) ∧
      4 ≤ s1.parentPopulation.length ∧
      ∀ c ∈ s.parentPopulation, ∃ d ∈ res.state.parentPopulation,
        d.fitnessScore ≤ c.fitnessScore := by
  obtain ⟨g1, c0, rest, hsel, h4, _, _, hcase⟩ := selectAndMutate_ready X r s s1 entry hready
  have hcfg := SelectBestChromosomes_config _ _ _ _ _ hsel
  rcases hcase with ⟨_, _, hs1⟩ | ⟨_, hfired, _⟩
  swap
  · rw [hfired] at hnot
    exact absurd hnot (by decide)
  obtain ⟨c0', rest', hse, hpop1, _⟩ :=
    (SelectBestChromosomes_some_iff _ _ _ _ _).mp hsel
  rw [← hpop1] at hse
  obtain ⟨hmem, hmin⟩ := selectAndErase_head_min_of_some s.globals.tspConfig
    r.selectDraws s.parentPopulation c0 rest hse hbest
  have hp0 := pct_nonneg_of_floor_pos _ _ helite
  have hs1pop : s1.parentPopulation = c0 :: rest := by rw [hs1]; rfl
  have hs1g : s1.globals = g1 := by rw [hs1]; rfl
  have hp0' : 0 ≤ s1.globals.config.eliteChromosomesPct := by rw [hs1g, hcfg]; exact hp0
  have hp1' : s1.globals.config.eliteChromosomesPct ≤ 1 := by rw [hs1g, hcfg]; exact hp1
  have he := lastEliteIndex_inRange s1.globals.config s1.parentPopulation.length hp0' hp1'
  have hfl := lastEliteIndex_eq_floor s1.globals.config s1.parentPopulation.length hp0'
  have hlen4 : 4 ≤ s1.parentPopulation.length := by rw [hs1pop]; exact h4
  obtain ⟨np, hnp, _, htake⟩ := GenerateSubPopulation_spec X s1.globals .ShuffledSequentialPair
    r.shuffleDraws r.pmxSeeds s1.parentPopulation he (by simp only [minimumSize]; omega)
  have hkpos : 0 < (lastEliteIndex s1.globals.config s1.parentPopulation.length).toNat := by
    rw [hfl, hs1g, hcfg]
    omega
  have hc0np : c0 ∈ np := by
    apply List.mem_of_mem_take (n := (lastEliteIndex s1.globals.config
      s1.parentPopulation.length).toNat)
    rw [htake]
    rw [hs1pop] at hkpos ⊢
    rw [List.take_cons hkpos]
    exact List.mem_cons_self _ _
  have hfinal : ∀ c ∈ s.parentPopulation,
      ∃ d ∈ (stateAfterCrossover X s1 np).parentPopulation, d.fitnessScore ≤ c.fitnessScore := by
    intro c hc
    refine ⟨X.CalculateFitnessScore c0, ?_, ?_⟩
    · simp only [stateAfterCrossover, CalculateFitnessScores]
      exact List.mem_map_of_mem _ hc0np
    · have h0 : (X.CalculateFitnessScore c0).fitnessScore = c0.fitnessScore :=
        (hfit c0 hmem).symm
      rw [h0]
      exact hmin c hc
  have hbody := generationBody_of_ready X maxGenerations r s s1 entry np _ hready hnp
  by_cases hcount : (stateAfterCrossover X s1 np).createdGenerationCount = maxGenerations
  · rw [if_pos hcount] at hbody
    exact ⟨_, hbody, fun s2 e2 => by simp, hlen4, hfinal⟩
  · rw [if_neg hcount] at hbody
    exact ⟨_, hbody, fun s2 e2 => by simp, hlen4, hfinal⟩

/-- C20 at a concrete input: the first pass of the four-city run with an elite fraction of one
half. -/
theorem C20_elitism_monotone_witness :
    ∃ res, generationBody lineExternals 3 (identityRandom 0)
        (initialDriverState (driverGlobals eliteDriverConfig) fourCityPopulation 0) = some res ∧
      (∀ s2 e2, res ≠ .broke s2 e2) ∧
      4 ≤ eliteReadyState.parentPopulation.length ∧
      ∀ c ∈ (initialDriverState (driverGlobals eliteDriverConfig)
          fourCityPopulation 0).parentPopulation,
        ∃ d ∈ res.state.parentPopulation, d.fitnessScore ≤ c.fitnessScore :=
  C20_elitism_monotone lineExternals 3 (identityRandom 0)
    (initialDriverState (driverGlobals eliteDriverConfig) fourCityPopulation 0)
    eliteReadyState ⟨6, 5, false⟩ (by decide!) (by decide!) (by decide!) rfl (by decide!)
    (by decide!)

/-! ## CreateGenerations: how a pass through the loop body ends -/

/-- Every way `generationBody` produces a result. -/
theorem generationBody_some (X : Externals) (maxGenerations : Nat) (r : GenRandom)
    (s : DriverState) (res : BodyResult) (h : generationBody X maxGenerations r s = some res) :
    (∃ s1 entry, selectAndMutate X r s = some (.stop s1 entry) ∧ res = .broke s1 entry) ∨
    (∃ s1 entry np receiver, selectAndMutate X r s = some (.ready s1 entry) ∧
      GenerateSubPopulation X s1.globals .ShuffledSequentialPair r.shuffleDraws r.pmxSeeds
        s1.parentPopulation = some (np, receiver) ∧
      (((stateAfterCrossover X s1 np).createdGenerationCount = maxGenerations ∧
          res = .returned (stateAfterCrossover X s1 np) entry) ∨
       ((stateAfterCrossover X s1 np).createdGenerationCount ≠ maxGenerations ∧
          res = .continued (stateAfterCrossover X s1 np) entry))) := by
  cases hsm : selectAndMutate X r s with
  | none =>
    unfold generationBody at h
    rw [hsm] at h
    exact absurd h (by simp)
  | some ph =>
    cases ph with
    | stop s1 entry =>
      unfold generationBody at h
      rw [hsm] at h
      exact Or.inl ⟨s1, entry, rfl, (Option.some.inj h).symm⟩
    | ready s1 entry =>
      cases hgen : GenerateSubPopulation X s1.globals .ShuffledSequentialPair r.shuffleDraws
          r.pmxSeeds s1.parentPopulation with
      | none =>
        unfold generationBody at h
        rw [hsm] at h
        dsimp only at h
        rw [hgen] at h
        exact absurd h (by simp)
      | some pr =>
        obtain ⟨np, receiver⟩ := pr
        rw [generationBody_of_ready X maxGenerations r s s1 entry np receiver hsm hgen] at h
        refine Or.inr ⟨s1, entry, np, receiver, rfl, hgen, ?_⟩
        by_cases hc : (stateAfterCrossover X s1 np).createdGenerationCount = maxGenerations
        · rw [if_pos hc] at h
          exact Or.inl ⟨hc, (Option.some.inj h).symm⟩
        · rw [if_neg hc] at h
          exact Or.inr ⟨hc, (Option.some.inj h).symm⟩

/-- A pass that does not take the `break` of line 60 ends in the state that stood before line 76,
up to the population and the generation count. -/
theorem generationBody_carries (X : Externals) (maxGenerations : Nat) (r : GenRandom)
    (s s1 : DriverState) (entry : LogEntry) (res : BodyResult)
    (hsm : selectAndMutate X r s = some (.ready s1 entry))
    (h : generationBody X maxGenerations r s = some res) :
    res.state.lastFitnessScore = s1.lastFitnessScore ∧
    res.state.mutationPatience = s1.mutationPatience ∧
    res.state.globals = s1.globals := by
  rcases generationBody_some X maxGenerations r s res h with
    ⟨s1', entry', hsm', _⟩ | ⟨s1', entry', np, receiver, hsm', _, hres⟩
  · rw [hsm] at hsm'
    simp at hsm'
  · rw [hsm] at hsm'
    simp only [Option.some.injEq, Phase.ready.injEq] at hsm'
    obtain ⟨rfl, rfl⟩ := hsm'
    rcases hres with ⟨_, rfl⟩ | ⟨_, rfl⟩ <;> exact ⟨rfl, rfl, rfl⟩

/-! ## C17: what the stagnation counter is compared with -/

/-- C17 fails as stated. In the four-city run with patience 1 the second pass has the
post-selection best 6 and calls `Mutate`, after which chromosome 0 has fitness 8; the third pass
has the post-selection best 6 again, so the counter of the claim is 1 + 1 = 2 and `Mutate` is due,
but the code compares 6 with the recorded 8, sets the counter to 0 and does not call `Mutate`. -/
theorem C17_counterexample :
    generationBody lineExternals 3 (identityRandom 1) fourCityAfterOnePass =
      some (.continued fourCityAfterTwoPasses ⟨6, 6, true⟩) ∧
    generationBody lineExternals 3 (identityRandom 2) fourCityAfterTwoPasses =
      some (.returned fourCityAfterThreePasses ⟨6, 8, false⟩) ∧
    specStagnationCounter fourCityAfterTwoPasses.mutationPatience 6 6 = 2 ∧
    (driverConfig 4 1 3).mutationPatience ≤ 2 ∧
    fourCityAfterThreePasses.mutationPatience = 0 ∧
    CreateGenerations lineExternals identityRandom 10 (driverGlobals (driverConfig 4 1 3))
        fourCityPopulation 0 =
      .finished .MaxGenerationsReached 3 [⟨6, 5, false⟩, ⟨6, 6, true⟩, ⟨6, 8, false⟩]
        fourCityAfterThreePasses := by
  decide!

/-- C17 (amended). In every pass whose selection leaves at least 4 chromosomes, lines 54-74
complete; the stagnation counter becomes the old counter plus one when the fitness of
chromosome 0 after selection equals the stored `lastFitnessScore`, and 0 otherwise; `Mutate`
followed by the fitness recomputation is executed if and only if the new counter is at least
the configured patience, and otherwise population and globals are those of the selection; the
value stored in `lastFitnessScore` is the fitness of chromosome 0 after that step (of the
mutated population when `Mutate` ran), and it is this value, together with the counter, that
the pass hands on to the next one. -/
theorem C17_counter_update (X : Externals) (r : GenRandom) (s : DriverState) (g1 : Globals)
    (c0 : Chromosome) (rest : List Chromosome)
    (hsel : SelectBestChromosomes s.globals r.selectDraws s.parentPopulation =
      some (g1, c0 :: rest))
    (h4 : 4 ≤ (c0 :: rest).length) :
    ∃ s1 entry, selectAndMutate X r s = some (.ready s1 entry) ∧
      s1.mutationPatience =
        (if c0.fitnessScore = s.lastFitnessScore then s.mutationPatience + 1 else 0) ∧
      (entry.mutationFired = true ↔ s.globals.config.mutationPatience ≤ s1.mutationPatience) ∧
      (entry.mutationFired = true →
        s1.parentPopulation =
            CalculateFitnessScores X (Mutate X g1 r.mutateSeeds (c0 :: rest)).2 ∧
          s1.globals = (Mutate X g1 r.mutateSeeds (c0 :: rest)).1) ∧
      (entry.mutationFired = false → s1.parentPopulation = c0 :: rest ∧ s1.globals = g1) ∧
      s1.parentPopulation.head?.map Chromosome.fitnessScore = some s1.lastFitnessScore ∧
      ∀ maxGenerations res, generationBody X maxGenerations r s = some res →
        res.state.lastFitnessScore = s1.lastFitnessScore ∧
        res.state.mutationPatience = s1.mutationPatience := by
  have hcfg := SelectBestChromosomes_config _ _ _ _ _ hsel
  have h4' : ¬ (c0 :: rest).length < 4 := by omega
  by_cases hdue : g1.config.mutationPatience ≤ stagnationCounter s c0.fitnessScore
  · obtain ⟨d0, ds, hm, heq⟩ := selectAndMutate_fired X r s g1 c0 rest hsel h4' hdue
    refine ⟨_, _, heq, rfl, ?_, ?_, ?_, rfl, ?_⟩
    · rw [← hcfg]
      exact ⟨fun _ => hdue, fun _ => rfl⟩
    · intro _
      exact ⟨hm.symm, rfl⟩
    · intro hf
      simp at hf
    · intro N res hres
      have hc := generationBody_carries X N r s _ _ res heq hres
      exact ⟨hc.1, hc.2.1⟩
  · have heq := selectAndMutate_not_fired X r s g1 c0 rest hsel h4' hdue
    refine ⟨_, _, heq, rfl, ?_, ?_, ?_, rfl, ?_⟩
    · rw [← hcfg]
      exact ⟨fun hf => by simp at hf, fun h => absurd h hdue⟩
    · intro hf
      simp at hf
    · intro _
      exact ⟨rfl, rfl⟩
    · intro N res hres
      have hc := generationBody_carries X N r s _ _ res heq hres
      exact ⟨hc.1, hc.2.1⟩

/-- C17 (amended) at a concrete input: the third pass of the four-city run, which follows a
pass in which `Mutate` was called. -/
theorem C17_counter_update_witness :
    ∃ s1 entry, selectAndMutate lineExternals (identityRandom 2) fourCityAfterTwoPasses =
        some (.ready s1 entry) ∧
      s1.mutationPatience =
        (if fourCityBest.fitnessScore = fourCityAfterTwoPasses.lastFitnessScore
          then fourCityAfterTwoPasses.mutationPatience + 1 else 0) ∧
      (entry.mutationFired = true ↔
        fourCityAfterTwoPasses.globals.config.mutationPatience ≤ s1.mutationPatience) ∧
      (entry.mutationFired = true →
        s1.parentPopulation =
            CalculateFitnessScores lineExternals (Mutate lineExternals
              fourCityAfterTwoPasses.globals (identityRandom 2).mutateSeeds
              (fourCityBest :: fourCityThirdRest)).2 ∧
          s1.globals = (Mutate lineExternals fourCityAfterTwoPasses.globals
              (identityRandom 2).mutateSeeds (fourCityBest :: fourCityThirdRest)).1) ∧
      (entry.mutationFired = false →
        s1.parentPopulation = fourCityBest :: fourCityThirdRest ∧
          s1.globals = fourCityAfterTwoPasses.globals) ∧
      s1.parentPopulation.head?.map Chromosome.fitnessScore = some s1.lastFitnessScore ∧
      ∀ maxGenerations res,
        generationBody lineExternals maxGenerations (identityRandom 2) fourCityAfterTwoPasses =
          some res →
        res.state.lastFitnessScore = s1.lastFitnessScore ∧
        res.state.mutationPatience = s1.mutationPatience :=
  C17_counter_update lineExternals (identityRandom 2) fourCityAfterTwoPasses
    fourCityAfterTwoPasses.globals fourCityBest fourCityThirdRest (by decide!) (by decide)

/-! ## C14: the counter after a forced mutation -/

/-- C14 fails as stated. In the three-city run with patience 1 every tour has fitness 4. The
second pass calls `Mutate` and leaves the counter at 1, not at 0; the third pass, the one
immediately following, finds the best fitness unchanged, raises the counter to 2 and calls
`Mutate` again. -/
theorem C14_counterexample :
    generationBody lineExternals 3 (identityRandom 1) threeCityAfterOnePass =
      some (.continued threeCityAfterTwoPasses ⟨4, 6, true⟩) ∧
    threeCityAfterTwoPasses.mutationPatience = 1 ∧
    generationBody lineExternals 3 (identityRandom 2) threeCityAfterTwoPasses =
      some (.returned threeCityAfterThreePasses ⟨4, 8, true⟩) ∧
    threeCityAfterThreePasses.mutationPatience = 2 ∧
    CreateGenerations lineExternals identityRandom 10 (driverGlobals (driverConfig 3 1 3))
        threeCityPopulation 0 =
      .finished .MaxGenerationsReached 3 [⟨4, 5, false⟩, ⟨4, 6, true⟩, ⟨4, 8, true⟩]
        threeCityAfterThreePasses := by
  decide!

/-- C14 (amended). A pass in which `Mutate` is called does not reset the stagnation counter: the
pass ends with the counter at the value of line 67, which is at least the patience. In the
immediately following pass (when its selection leaves at least 4 chromosomes) `Mutate` is
called again, with the counter one higher, if the fitness of chromosome 0 after selection
equals the fitness recorded after the mutation; if it differs the counter becomes 0, and
`Mutate` is then called only for a patience of at most 0. -/
theorem C14_counter_not_reset (X : Externals) (maxGenerations : Nat) (r r2 : GenRandom)
    (s s2 : DriverState) (e1 : LogEntry)
    (hbody : generationBody X maxGenerations r s = some (.continued s2 e1))
    (hfired : e1.mutationFired = true) :
    s.globals.config.mutationPatience ≤ s2.mutationPatience ∧
    s2.mutationPatience = stagnationCounter s e1.bestFitness ∧
    ∀ g1 c0 rest,
      SelectBestChromosomes s2.globals r2.selectDraws s2.parentPopulation =
        some (g1, c0 :: rest) →
      4 ≤ (c0 :: rest).length →
      ∃ s3 e2, selectAndMutate X r2 s2 = some (.ready s3 e2) ∧
        (c0.fitnessScore = s2.lastFitnessScore →
          e2.mutationFired = true ∧ s3.mutationPatience = s2.mutationPatience + 1) ∧
        (c0.fitnessScore ≠ s2.lastFitnessScore →
          s3.mutationPatience = 0 ∧
            (e2.mutationFired = true ↔ s.globals.config.mutationPatience ≤ 0)) := by
  rcases generationBody_some X maxGenerations r s _ hbody with
    ⟨_, _, _, hres⟩ | ⟨s1, entry, np, receiver, hsm, _, hres⟩
  · simp at hres
  have hs2 : s2 = stateAfterCrossover X s1 np ∧ e1 = entry := by
    rcases hres with ⟨_, hres⟩ | ⟨_, hres⟩
    · simp at hres
    · simpa using hres
  obtain ⟨rfl, rfl⟩ := hs2
  obtain ⟨g0, b0, brest, hsel0, _, hbf, _, hcase⟩ := selectAndMutate_ready X r s s1 e1 hsm
  have hcfg0 := SelectBestChromosomes_config _ _ _ _ _ hsel0
  rcases hcase with ⟨_, hnf, _⟩ | ⟨hdue, _, d0, ds, _, hs1⟩
  · rw [hnf] at hfired
    simp at hfired
  have hmp : (stateAfterCrossover X s1 np).mutationPatience =
      stagnationCounter s b0.fitnessScore := by
    rw [hs1]
    rfl
  have hcfg1 : (stateAfterCrossover X s1 np).globals.config = s.globals.config := by
    rw [hs1, ← hcfg0]
    rfl
  rw [hcfg0] at hdue
  refine ⟨by rw [hmp]; exact hdue, by rw [hmp, hbf], ?_⟩
  intro g1 c0 rest hsel h4
  have hcfg2 := SelectBestChromosomes_config _ _ _ _ _ hsel
  have h4' : ¬ (c0 :: rest).length < 4 := by omega
  by_cases hdue2 : g1.config.mutationPatience ≤
      stagnationCounter (stateAfterCrossover X s1 np) c0.fitnessScore
  · obtain ⟨e0, es, _, heq⟩ := selectAndMutate_fired X r2 _ g1 c0 rest hsel h4' hdue2
    refine ⟨_, _, heq, ?_, ?_⟩
    · intro hsame
      refine ⟨rfl, ?_⟩
      simp only [stateWithMutation, stagnationCounter, hsame, if_true]
    · intro hdiff
      have h0 : stagnationCounter (stateAfterCrossover X s1 np) c0.fitnessScore = 0 := by
        simp only [stagnationCounter, hdiff, if_false]
      refine ⟨h0, fun _ => ?_, fun _ => rfl⟩
      rw [h0, hcfg2, hcfg1] at hdue2
      exact hdue2
  · have heq := selectAndMutate_not_fired X r2 _ g1 c0 rest hsel h4' hdue2
    refine ⟨_, _, heq, ?_, ?_⟩
    · intro hsame
      exfalso
      apply hdue2
      have hs2c : stagnationCounter (stateAfterCrossover X s1 np) c0.fitnessScore =
          (stateAfterCrossover X s1 np).mutationPatience + 1 := by
        simp only [stagnationCounter, hsame, if_true]
      rw [hcfg2, hcfg1, hs2c, hmp]
      omega
    · intro hdiff
      have h0 : stagnationCounter (stateAfterCrossover X s1 np) c0.fitnessScore = 0 := by
        simp only [stagnationCounter, hdiff, if_false]
      refine ⟨h0, fun hf => by simp at hf, fun hle => ?_⟩
      exfalso
      apply hdue2
      rw [h0, hcfg2, hcfg1]
      exact hle

/-- C14 (amended) at a concrete input: the second and third pass of the three-city run. -/
theorem C14_counter_not_reset_witness :
    threeCityAfterOnePass.globals.config.mutationPatience ≤
      threeCityAfterTwoPasses.mutationPatience ∧
    ∃ s3 e2, selectAndMutate lineExternals (identityRandom 2) threeCityAfterTwoPasses =
        some (.ready s3 e2) ∧
      (threeCityMutated.fitnessScore = threeCityAfterTwoPasses.lastFitnessScore →
        e2.mutationFired = true ∧
          s3.mutationPatience = threeCityAfterTwoPasses.mutationPatience + 1) ∧
      (threeCityMutated.fitnessScore ≠ threeCityAfterTwoPasses.lastFitnessScore →
        s3.mutationPatience = 0 ∧
          (e2.mutationFired = true ↔
            threeCityAfterOnePass.globals.config.mutationPatience ≤ 0)) :=
  ⟨(C14_counter_not_reset lineExternals 3 (identityRandom 1) (identityRandom 2)
      threeCityAfterOnePass threeCityAfterTwoPasses ⟨4, 6, true⟩ (by decide!) rfl).1,
   (C14_counter_not_reset lineExternals 3 (identityRandom 1) (identityRandom 2)
      threeCityAfterOnePass threeCityAfterTwoPasses ⟨4, 6, true⟩ (by decide!) rfl).2.2
      threeCityAfterTwoPasses.globals threeCityMutated threeCityThirdRest
      (by decide!) (by decide)⟩

/-! ## C12: the generation limit -/

/-- For a limit `1 ≤ N < 2^32` the loop started with a generation count below `N` makes no more
than `N` transitions: it ends with the max-generations outcome after exactly `N`, or with fewer
when the population runs out. -/
theorem generationLoop_transitions (X : Externals) (rnd : Nat → GenRandom) (maxGenerations : Nat)
    (hN : maxGenerations < 4294967296) :
    ∀ (fuel i t : Nat) (log : List LogEntry) (s : DriverState),
      s.createdGenerationCount = t → t < maxGenerations →
      ∀ o t1 log1 s1,
        generationLoop X rnd maxGenerations fuel i t log s = .finished o t1 log1 s1 →
        (o = .MaxGenerationsReached → t1 = maxGenerations) ∧
        (o = .NotEnoughChromosomes → t1 < maxGenerations) := by
  intro fuel
  induction fuel with
  | zero =>
    intro i t log s _ _ o t1 log1 s1 h
    simp [generationLoop] at h
  | succ fuel ih =>
    intro i t log s hs ht o t1 log1 s1 h
    unfold generationLoop at h
    by_cases hlen : 4 < s.parentPopulation.length
    · rw [if_pos hlen] at h
      cases hb : generationBody X maxGenerations (rnd i) s with
      | none =>
        rw [hb] at h
        simp at h
      | some res =>
        rw [hb] at h
        rcases generationBody_some X maxGenerations (rnd i) s res hb with
          ⟨sa, ea, _, rfl⟩ | ⟨sa, ea, np, receiver, hsm, _, hres⟩
        · simp only [RunResult.finished.injEq] at h
          obtain ⟨rfl, rfl, _, _⟩ := h
          exact ⟨fun ho => by simp at ho, fun _ => ht⟩
        · have hcount := (selectAndMutate_ready_size X (rnd i) s sa ea hsm).2.2
          have hc : (stateAfterCrossover X sa np).createdGenerationCount = t + 1 := by
            simp only [stateAfterCrossover, hcount, hs]
            omega
          rcases hres with ⟨heqN, rfl⟩ | ⟨hneN, rfl⟩
          · simp only [RunResult.finished.injEq] at h
            obtain ⟨rfl, rfl, _, _⟩ := h
            rw [hc] at heqN
            exact ⟨fun _ => heqN, fun ho => by simp at ho⟩
          · rw [hc] at hneN
            exact ih (i + 1) (t + 1) (log ++ [ea]) (stateAfterCrossover X sa np) hc
              (by omega) o t1 log1 s1 h
    · rw [if_neg hlen] at h
      simp only [RunResult.finished.injEq] at h
      obtain ⟨rfl, rfl, _, _⟩ := h
      exact ⟨fun ho => by simp at ho, fun _ => ht⟩

/-- For a limit `1 ≤ N < 2^32`, `N - t` passes of fuel suffice for the loop started with the
generation count `t < N`. -/
theorem generationLoop_fuel (X : Externals) (rnd : Nat → GenRandom) (maxGenerations : Nat)
    (hN : maxGenerations < 4294967296) :
    ∀ (fuel i t : Nat) (log : List LogEntry) (s : DriverState),
      s.createdGenerationCount = t → t < maxGenerations → maxGenerations - t ≤ fuel →
      generationLoop X rnd maxGenerations fuel i t log s ≠ .outOfFuel := by
  intro fuel
  induction fuel with
  | zero =>
    intro i t log s _ ht hf
    omega
  | succ fuel ih =>
    intro i t log s hs ht hf
    unfold generationLoop
    by_cases hlen : 4 < s.parentPopulation.length
    · rw [if_pos hlen]
      cases hb : generationBody X maxGenerations (rnd i) s with
      | none => simp
      | some res =>
        rcases generationBody_some X maxGenerations (rnd i) s res hb with
          ⟨sa, ea, _, rfl⟩ | ⟨sa, ea, np, receiver, hsm, _, hres⟩
        · simp
        · have hcount := (selectAndMutate_ready_size X (rnd i) s sa ea hsm).2.2
          have hc : (stateAfterCrossover X sa np).createdGenerationCount = t + 1 := by
            simp only [stateAfterCrossover, hcount, hs]
            omega
          rcases hres with ⟨_, rfl⟩ | ⟨hneN, rfl⟩
          · simp
          · rw [hc] at hneN
            exact ih (i + 1) (t + 1) (log ++ [ea]) (stateAfterCrossover X sa np) hc
              (by omega) (by omega)
    · rw [if_neg hlen]
      simp

/-- The driver with a limit `1 ≤ N < 2^32`: `N` passes of fuel suffice, and a run that ends has
made exactly `N` transitions at the max-generations outcome and fewer than `N` at the
not-enough-chromosomes outcome. -/
theorem CreateGenerations_bounded (X : Externals) (rnd : Nat → GenRandom) (fuel : Nat)
    (g : Globals) (pop : List Chromosome) (uninitialised : ℚ)
    (h1 : 1 ≤ g.config.maxGenerations) (hN : g.config.maxGenerations < 4294967296)
    (hfuel : g.config.maxGenerations ≤ fuel) :
    CreateGenerations X rnd fuel g pop uninitialised ≠ .outOfFuel ∧
    ∀ o t log s, CreateGenerations X rnd fuel g pop uninitialised = .finished o t log s →
      (o = .MaxGenerationsReached → t = g.config.maxGenerations) ∧
      (o = .NotEnoughChromosomes → t < g.config.maxGenerations) :=
  ⟨generationLoop_fuel X rnd _ hN fuel 0 0 [] _ rfl (by omega) (by omega),
   generationLoop_transitions X rnd _ hN fuel 0 0 [] _ rfl (by omega)⟩

/-- C12 fails on the code for the limit 0: the generation count is incremented before it is
compared with the limit at line 86, so the count 0 is never seen there. With the limit 0 and six
chromosomes the driver completes two generation transitions and stops only because four
chromosomes are left. -/
theorem C12_zero_limit_exceeded :
    zeroLimitGlobals.config.maxGenerations = 0 ∧
    CreateGenerations lineExternals identityRandom 10 zeroLimitGlobals zeroLimitPopulation 0 =
      .finished .NotEnoughChromosomes 2 [⟨4, 6, false⟩, ⟨4, 4, false⟩] zeroLimitFinalState := by
  decide!

/-! ## C13: a population of exactly 4 -/

/-- C13 fails on the code: the loop test of line 51 is `size > 4`, so a population of exactly 4
chromosomes (or fewer) at the loop test ends the run with the not-enough-chromosomes outcome,
without selection or recombination and whatever the generation limit; whereas the test of line
59 is `size < 4`, so a population of exactly 4 chromosomes after the selection does go on to
line 76. -/
theorem C13_four_at_entry_stops (X : Externals) (rnd : Nat → GenRandom) (fuel : Nat)
    (g : Globals) (pop : List Chromosome) (uninitialised : ℚ) (h : pop.length ≤ 4) :
    CreateGenerations X rnd (fuel + 1) g pop uninitialised =
      .finished .NotEnoughChromosomes 0 [] (initialDriverState g pop uninitialised) ∧
    ∀ (r : GenRandom) (s : DriverState) (g1 : Globals) (c0 : Chromosome)
      (rest : List Chromosome),
      SelectBestChromosomes s.globals r.selectDraws s.parentPopulation =
        some (g1, c0 :: rest) →
      (c0 :: rest).length = 4 →
      ∃ s1 entry, selectAndMutate X r s = some (.ready s1 entry) := by
  constructor
  · have hlen : ¬ 4 < (initialDriverState g pop uninitialised).parentPopulation.length := by
      simp only [initialDriverState]
      omega
    unfold CreateGenerations generationLoop
    rw [if_neg hlen]
  · intro r s g1 c0 rest hsel h4
    have h4' : ¬ (c0 :: rest).length < 4 := by omega
    by_cases hdue : g1.config.mutationPatience ≤ stagnationCounter s c0.fitnessScore
    · obtain ⟨d0, ds, _, heq⟩ := selectAndMutate_fired X r s g1 c0 rest hsel h4' hdue
      exact ⟨_, _, heq⟩
    · exact ⟨_, _, selectAndMutate_not_fired X r s g1 c0 rest hsel h4' hdue⟩

/-- C13 on four three-city tours with the generation limit 3: the run ends at once. -/
theorem C13_four_at_entry_stops_witness :
    CreateGenerations lineExternals identityRandom 10 (driverGlobals (driverConfig 3 1 3))
        fourChromosomes 0 =
      .finished .NotEnoughChromosomes 0 []
        (initialDriverState (driverGlobals (driverConfig 3 1 3)) fourChromosomes 0) :=
  (C13_four_at_entry_stops lineExternals identityRandom 9 (driverGlobals (driverConfig 3 1 3))
    fourChromosomes 0 (by decide)).1

end TspGa
